import Mathlib

/-!
Verification development for the pm-dashboard repository.

The repository consists of near-duplicate serverless handlers
(`netlify/functions/airtable.js`, `netlify/functions/airtable-with-cashflow.js`,
and the two unnamed variants `part_000`, `part_001`) that read Airtable tables
(Projects / Tasks / Team / Critical / Cashflow), denormalize them into a
nested JSON tree keyed by a project key, and expose create/update/delete
passthrough routes for Tasks and Cashflow.

This file gives a shallow embedding of that JavaScript code:

* JavaScript values are modelled by `PM.Val` (strings, numbers, booleans,
  null, NaN, and linked-record id-lists); JavaScript objects by association
  lists with JS-object update semantics (`PM.objSet` replaces in place,
  `PM.objUpd` mutates an existing entry).
* JavaScript numbers are modelled exactly by an unnormalized fraction
  `PM.Qn` (integer numerator, positive natural denominator) together with a
  NaN marker (`PM.JsNum`); `PM.Qn.val` interprets them in `ℚ`.
* Fallible JavaScript evaluation (thrown exceptions) is modelled with
  `Except String`; the thrown value is the `String(e)` rendering the
  handlers place into their 500 response.
* Each handler (`handlerP1` for `part_001`, `handlerA` for the first handler
  of `airtable.js`, `handlerWC` for `airtable-with-cashflow.js`) is a total
  function from environment, parsed request event and a backend oracle to a
  response together with the chronological list of outbound backend calls.
-/

namespace PM

/-- Exact JavaScript number: an unnormalized fraction with integer numerator
and positive natural denominator.  Kept unnormalized so that all coercions
in the embedding compute by kernel reduction; `Qn.val` is the mathematical
value in `ℚ`. -/
structure Qn where
  n : Int
  d : Nat
deriving DecidableEq

/-- Mathematical value of a `Qn`. -/
def Qn.val (q : Qn) : ℚ := (q.n : ℚ) / (q.d : ℚ)

/-- Embed a natural number as a `Qn`. -/
def Qn.ofNat (k : Nat) : Qn := ⟨(k : Int), 1⟩

/-- A JavaScript number: either NaN or a finite value. -/
inductive JsNum where
  | nan : JsNum
  | num (q : Qn) : JsNum
deriving DecidableEq

/-- JavaScript field value as stored in the Airtable JSON payloads: a string,
a number, a boolean, null, NaN (producible by `Number(...)` coercions), or a
linked-record reference list (a list of record-id strings, which is the only
array shape the backend produces for the modelled tables). -/
inductive Val where
  | vStr (s : String)
  | vNum (q : Qn)
  | vBool (b : Bool)
  | vNull
  | vNan
  | vList (ids : List String)
deriving DecidableEq

/-- JavaScript truthiness of a value: `""`, `0`, `false`, `null` and `NaN`
are falsy; every other modelled value (including the empty array) is truthy. -/
def truthy : Val → Bool
  | .vStr s => !s.data.isEmpty
  | .vNum q => !(q.n == 0)
  | .vBool b => b
  | .vNull => false
  | .vNan => false
  | .vList _ => true

/-- Truthiness of a possibly-undefined value (`undefined` is falsy). -/
def truthyOpt : Option Val → Bool
  | none => false
  | some v => truthy v

/-- Decimal rendering of a `Qn` used for JavaScript string coercion of
numbers.  Integers are rendered exactly; for non-integer numbers the model
uses a fraction rendering (JavaScript's decimal rendering of non-integer
numbers is abstracted; none of the modelled tables use non-integer numbers
as object keys or template-literal arguments). -/
def ratToStr (q : Qn) : String :=
  if q.d = 1 then toString q.n else toString q.n ++ "/" ++ toString q.d

/-- JavaScript string coercion `String(v)`, as used for object property keys
and template literals.  Arrays join their elements with `","`. -/
def propKey : Val → String
  | .vStr s => s
  | .vNum q => ratToStr q
  | .vBool b => if b then "true" else "false"
  | .vNull => "null"
  | .vNan => "NaN"
  | .vList l => String.intercalate "," l

/-- String coercion of a possibly-undefined value (`String(undefined)` is
`"undefined"`). -/
def propKeyOpt : Option Val → String
  | none => "undefined"
  | some v => propKey v

/-- A JavaScript object with string keys, modelled as an association list in
insertion order. -/
abbrev Obj (α : Type) : Type := List (String × α)

/-- Property read `o[k]`: `none` models `undefined`. -/
def objGet {α : Type} : Obj α → String → Option α
  | [], _ => none
  | (k, v) :: rest, key => if k = key then some v else objGet rest key

/-- Whether the object has the property (used for `!o[k]`-style existence
checks on objects whose values are always truthy). -/
def objHas {α : Type} (o : Obj α) (k : String) : Bool := (objGet o k).isSome

/-- Property write `o[k] = v`: replaces in place if present, appends
otherwise (JavaScript insertion-order semantics). -/
def objSet {α : Type} : Obj α → String → α → Obj α
  | [], key, v => [(key, v)]
  | (k, w) :: rest, key, v =>
      if k = key then (k, v) :: rest else (k, w) :: objSet rest key v

/-- In-place mutation of an existing property (`o[k].xs.push(x)` style); a
no-op when the property is absent. -/
def objUpd {α : Type} : Obj α → String → (α → α) → Obj α
  | [], _, _ => []
  | (k, w) :: rest, key, f =>
      if k = key then (k, f w) :: rest else (k, w) :: objUpd rest key f

/-- The keys of an object, in order. -/
def objKeys {α : Type} (o : Obj α) : List String := o.map Prod.fst

/-- Field read on a record's `fields` object. -/
def getField (fs : Obj Val) (name : String) : Option Val := objGet fs name

/-- Nullish coalescing `x ?? d`: replaces `undefined` and `null`. -/
def nullish (o : Option Val) (d : Val) : Val :=
  match o with
  | none => d
  | some .vNull => d
  | some v => v

/-- Logical-or defaulting `x || d`: replaces every falsy value. -/
def jsOrD (o : Option Val) (d : Val) : Val :=
  match o with
  | none => d
  | some v => if truthy v then v else d

/-- Whether the character list `pre` is an initial segment of `l`. -/
def strStarts : List Char → List Char → Bool
  | [], _ => true
  | _ :: _, [] => false
  | a :: as, b :: bs => a == b && strStarts as bs

/-- Whether the character list `needle` occurs contiguously inside `hay`. -/
def strHas : List Char → List Char → Bool
  | needle, [] => needle.isEmpty
  | needle, h :: t => strStarts needle (h :: t) || strHas needle t

/-- Whether the string `needle` occurs as a substring of `hay` (used to state
"the error message mentions the supplied key"). -/
def mentions (needle hay : String) : Bool := strHas needle.data hay.data

/-- Split a character list at every occurrence of `sep`, keeping empty
chunks, like JavaScript `String.prototype.split` with a single-character
separator. -/
def splitChars (sep : Char) : List Char → List (List Char)
  | [] => [[]]
  | c :: cs =>
      let r := splitChars sep cs
      if c = sep then [] :: r
      else
        match r with
        | h :: t => (c :: h) :: t
        | [] => [[c]]

/-- Numeric value of a list of decimal digit characters. -/
def digitsToNat (cs : List Char) : Nat :=
  cs.foldl (fun n c => 10 * n + (c.toNat - 48)) 0

/-- Whether every character in the list is a decimal digit. -/
def allDigits (cs : List Char) : Bool := cs.all Char.isDigit

/-- JavaScript `Number(s)` on a string: trims whitespace, maps the empty
string to `0`, and parses an optional sign followed by decimal digits with
at most one decimal point; anything else is NaN.  (Exponent, hexadecimal and
`Infinity` forms, which never occur in the modelled tables, are modelled as
NaN.) -/
def jsNumOfString (s : String) : JsNum :=
  let t := (s.data.dropWhile Char.isWhitespace).reverse.dropWhile Char.isWhitespace |>.reverse
  if t.isEmpty then .num (Qn.ofNat 0)
  else
    let (sgn, body) : Int × List Char :=
      match t with
      | '-' :: cs => (-1, cs)
      | '+' :: cs => (1, cs)
      | cs => (1, cs)
    match splitChars '.' body with
    | [ip] =>
        if allDigits ip && !ip.isEmpty then .num ⟨sgn * (digitsToNat ip : Int), 1⟩ else .nan
    | [ip, fp] =>
        if allDigits ip && allDigits fp && !(ip.isEmpty && fp.isEmpty) then
          .num ⟨sgn * ((digitsToNat ip * 10 ^ fp.length + digitsToNat fp : Nat) : Int),
                10 ^ fp.length⟩
        else .nan
    | _ => .nan

/-- JavaScript `Number(x)` on a possibly-undefined value. -/
def jsToNumber : Option Val → JsNum
  | none => .nan
  | some (.vStr s) => jsNumOfString s
  | some (.vNum q) => .num q
  | some (.vBool b) => .num (Qn.ofNat (if b then 1 else 0))
  | some .vNull => .num (Qn.ofNat 0)
  | some .vNan => .nan
  | some (.vList l) =>
      match l with
      | [] => .num (Qn.ofNat 0)
      | [x] => jsNumOfString x
      | _ => .nan

/-- The defaulting `x || 0` applied to a number: NaN (and 0) become 0. -/
def orZero : JsNum → Qn
  | .nan => Qn.ofNat 0
  | .num q => q

/-- Re-embed a computed number as a field value (`NaN` becomes `Val.vNan`). -/
def jsNumToVal : JsNum → Val
  | .nan => .vNan
  | .num q => .vNum q

/-- The character filter of `replace(/[^0-9.-]/g, "")`: keep only digits,
`'.'` and `'-'`. -/
def stripNonNum (s : String) : String :=
  String.mk (s.data.filter (fun c => c.isDigit || c == '.' || c == '-'))

/-- Day count of a month in the proleptic Gregorian calendar. -/
def daysInMonth (y m : Nat) : Nat :=
  if m = 2 then (if y % 4 = 0 && (y % 100 ≠ 0 || y % 400 = 0) then 29 else 28)
  else if m = 4 || m = 6 || m = 9 || m = 11 then 30
  else 31

/-- Validate a date-only ISO string `YYYY-MM-DD`. -/
def parseIsoDate (s : String) : Option String :=
  match s.data with
  | [y1, y2, y3, y4, '-', m1, m2, '-', d1, d2] =>
      if allDigits [y1, y2, y3, y4, m1, m2, d1, d2] then
        let y := digitsToNat [y1, y2, y3, y4]
        let m := digitsToNat [m1, m2]
        let d := digitsToNat [d1, d2]
        if 1 ≤ m && m ≤ 12 && 1 ≤ d && d ≤ daysInMonth y m then some s else none
      else none
  | _ => none

/-- The expression `new Date(v).toISOString().slice(0, 10)`.  For a valid
date-only ISO string this returns the same ten characters; for anything the
model treats as unparsable, `toISOString` throws `RangeError: Invalid time
value` (the model accepts exactly date-only `YYYY-MM-DD` strings; other
JavaScript-parsable date formats, which the modelled tables do not use, are
modelled as invalid). -/
def dateIso10 (v : Val) : Except String String :=
  match v with
  | .vStr s =>
      match parseIsoDate s with
      | some d => .ok d
      | none => .error "RangeError: Invalid time value"
  | _ => .error "RangeError: Invalid time value"

/-- The guarded date conversion `f ? new Date(f).toISOString().slice(0,10) : ""`. -/
def condDate (o : Option Val) : Except String String :=
  match o with
  | some v => if truthy v then dateIso10 v else .ok ""
  | none => .ok ""

/-- The guarded date conversion `f ? new Date(f).toISOString().slice(0,10) : null`
used for the Gantt fields of the project metadata. -/
def condDateNull (o : Option Val) : Except String Val :=
  match o with
  | some v => if truthy v then (dateIso10 v).map Val.vStr else .ok .vNull
  | none => .ok .vNull

/-- JavaScript `String(v)`; template-literal interpolation and property-key
coercion use the same conversion. -/
def jsStringOf (v : Val) : String := propKey v

/-- An Airtable record: its identifier and its `fields` object (an absent
`fields` object, guarded by `r.fields || {}` in the source, is modelled as
the empty object). -/
structure Rec where
  id : String
  fields : Obj Val
deriving DecidableEq

/-- The already-fetched record sequences consumed by one dashboard
aggregation. -/
structure AggInput where
  projects : List Rec
  tasks : List Rec
  team : List Rec
  critical : List Rec
  cashflow : List Rec
deriving DecidableEq

/-- One project's node in the aggregated tree: the `meta` object and the
four child sequences. -/
structure Entry where
  meta : Obj Val
  tasks : List (Obj Val)
  team : List (Obj Val)
  critical : List Val
  cashflow : List (Obj Val)
deriving DecidableEq

/-- The aggregated `projects` object. -/
abbrev TreeObj : Type := Obj Entry

/-! ## The `part_001` / `airtable.js` aggregation

`part_001` (lines 89–231) and the first handler of `airtable.js`
(lines 90–237) contain textually identical `buildProjectMaps`, project-tree
initialization and Task/Team/Critical loops, so those are embedded once and
shared; the two files differ only in the Cashflow loop (see `cashFoldA`). -/

/-- The loop body of `buildProjectMaps` (`part_001` lines 96–102,
`airtable.js` lines 97–103): for each Projects record with a truthy
`"Project Key"` field, set `projectIdToKey[p.id] = key` and
`projectKeyToId[key] = p.id`.  The id-to-key map stores the key value
itself (any later indexing coerces it); the key-to-id map is keyed by the
key's string coercion. -/
def buildMapsP1 : Obj Val × Obj String → List Rec → Obj Val × Obj String
  | acc, [] => acc
  | acc, p :: ps =>
      match getField p.fields "Project Key" with
      | some v =>
          if truthy v then
            buildMapsP1 (objSet acc.1 p.id v, objSet acc.2 (propKey v) p.id) ps
          else buildMapsP1 acc ps
      | none => buildMapsP1 acc ps

/-- `buildProjectMaps` of `part_001` / `airtable.js`: the bidirectional
project-key lookup table `(projectIdToKey, projectKeyToId)` built from the
Projects sequence. -/
def buildProjectMapsP1 (ps : List Rec) : Obj Val × Obj String :=
  buildMapsP1 ([], []) ps

/-- Project metadata object (`part_001` lines 133–149, `airtable.js`
lines 150–162). -/
def metaP1 (r : Rec) : Except String (Obj Val) :=
  match condDateNull (getField r.fields "Gantt Start") with
  | .error e => .error e
  | .ok gs =>
    match condDateNull (getField r.fields "Gantt End") with
    | .error e => .error e
    | .ok ge =>
      .ok [("name", jsOrD (getField r.fields "Name") (.vStr "")),
        ("subtitle", jsOrD (getField r.fields "Subtitle") (.vStr "")),
        ("statusLabel", jsOrD (getField r.fields "Status Label") (.vStr "")),
        ("client", jsOrD (getField r.fields "Client") (.vStr "")),
        ("amount", jsOrD (getField r.fields "Amount") (.vStr "")),
        ("start", jsOrD (getField r.fields "Start Display") (.vStr "")),
        ("end", jsOrD (getField r.fields "End Display") (.vStr "")),
        ("pm", jsOrD (getField r.fields "PM") (.vStr "")),
        ("ganttStart", gs), ("ganttEnd", ge)]

/-- The Projects loop of the GET route (`part_001` lines 128–155,
`airtable.js` lines 145–168): one fresh tree entry with empty child lists
per record with a truthy `"Project Key"`, later records overwriting earlier
ones with the same key. -/
def initTreeP1 : TreeObj → List Rec → Except String TreeObj
  | tree, [] => .ok tree
  | tree, p :: ps =>
      match getField p.fields "Project Key" with
      | some v =>
          if truthy v then
            match metaP1 p with
            | .error e => .error e
            | .ok m => initTreeP1 (objSet tree (propKey v) ⟨m, [], [], [], []⟩) ps
          else initTreeP1 tree ps
      | none => initTreeP1 tree ps

/-- Normalization of the linked-project reference:
`Array.isArray(proj) ? proj[0] : proj` (an empty array yields `undefined`). -/
def linkedIdOf (fs : Obj Val) : Option Val :=
  match getField fs "Project" with
  | some (.vList ids) =>
      match ids with
      | [] => none
      | s :: _ => some (.vStr s)
  | v => v

/-- The resolution `projectIdToKey[linkedId] || linkedId` of the child
loops. -/
def resolvedKeyP1 (idToKey : Obj Val) (fs : Obj Val) : Option Val :=
  let lid := linkedIdOf fs
  match objGet idToKey (propKeyOpt lid) with
  | some v => if truthy v then some v else lid
  | none => lid

/-- Task translation pushed by the Tasks loop (`part_001` lines 165–179,
`airtable.js` lines 178–188). -/
def transTaskP1 (t : Rec) : Except String (Obj Val) :=
  match condDate (getField t.fields "Start Date") with
  | .error e => .error e
  | .ok sd =>
    match condDate (getField t.fields "End Date") with
    | .error e => .error e
    | .ok ed =>
      .ok [("recordId", .vStr t.id),
        ("id", nullish (getField t.fields "Task ID") .vNull),
        ("name", jsOrD (getField t.fields "Name") (.vStr "")),
        ("description", jsOrD (getField t.fields "Description") (.vStr "")),
        ("owner", jsOrD (getField t.fields "Owner") (.vStr "")),
        ("status", jsOrD (getField t.fields "Status") (.vStr "pending")),
        ("progress", jsNumToVal (jsToNumber (some (nullish (getField t.fields "Progress")
          (.vNum (Qn.ofNat 0)))))),
        ("startDate", .vStr sd), ("endDate", .vStr ed)]

/-- Team translation (`part_001` lines 190–194, `airtable.js`
lines 199–203). -/
def transTeamP1 (m : Rec) : Obj Val :=
  [("name", jsOrD (getField m.fields "Name") (.vStr "")),
   ("role", jsOrD (getField m.fields "Role") (.vStr "")),
   ("initials", jsOrD (getField m.fields "Initials") (.vStr ""))]

/-- Critical translation (`part_001` line 205, `airtable.js` line 214):
`cf["Text"] || ""`. -/
def transCritP1 (c : Rec) : Val := jsOrD (getField c.fields "Text") (.vStr "")

/-- Cashflow translation of `part_001` (lines 216–230), including the
currency-stripping amount coercion
`Number(String(cf["Amount"] ?? 0).replace(/[^0-9.-]/g, "")) || 0`. -/
def transCashP1 (c : Rec) : Except String (Obj Val) :=
  match condDate (getField c.fields "Date") with
  | .error e => .error e
  | .ok d =>
    .ok [("recordId", .vStr c.id),
      ("concept", jsOrD (getField c.fields "Concept") (.vStr "")),
      ("date", .vStr d),
      ("type", jsOrD (getField c.fields "Type") (.vStr "")),
      ("amount", .vNum (orZero (jsNumOfString (stripNonNum (jsStringOf
        (nullish (getField c.fields "Amount") (.vNum (Qn.ofNat 0)))))))),
      ("currency", jsOrD (getField c.fields "Currency") (.vStr "USD")),
      ("party", jsOrD (getField c.fields "Party") (.vStr "")),
      ("status", jsOrD (getField c.fields "Status") (.vStr "")),
      ("notes", jsOrD (getField c.fields "Notes") (.vStr "")),
      ("relatedTask", jsOrD (getField c.fields "Relacionado a tarea") (.vStr ""))]

/-- The common shape of the four child loops: for each record, resolve its
project key; if the key is truthy and the tree has that project, translate
the record (this can throw, e.g. on a malformed date) and push the result
onto the project's list; otherwise skip the record silently. -/
def childFold {α : Type} (resolve : Rec → Option Val) (tr : Rec → Except String α)
    (pu : α → Entry → Entry) : TreeObj → List Rec → Except String TreeObj
  | tree, [] => .ok tree
  | tree, r :: rs =>
      if truthyOpt (resolve r) && objHas tree (propKeyOpt (resolve r)) then
        match tr r with
        | .error e => .error e
        | .ok x =>
            childFold resolve tr pu (objUpd tree (propKeyOpt (resolve r)) (pu x)) rs
      else childFold resolve tr pu tree rs

/-- Push helpers of the four child loops. -/
def pushTask (x : Obj Val) (e : Entry) : Entry := { e with tasks := e.tasks ++ [x] }

def pushTeam (x : Obj Val) (e : Entry) : Entry := { e with team := e.team ++ [x] }

def pushCrit (x : Val) (e : Entry) : Entry := { e with critical := e.critical ++ [x] }

def pushCash (x : Obj Val) (e : Entry) : Entry := { e with cashflow := e.cashflow ++ [x] }

/-- The full GET aggregation of `part_001` (lines 117–231): build the lookup
maps, initialize the tree from Projects, then run the four child loops. -/
def aggP1 (inp : AggInput) : Except String TreeObj :=
  let idToKey := (buildProjectMapsP1 inp.projects).1
  let res := fun r => resolvedKeyP1 idToKey (Rec.fields r)
  match initTreeP1 [] inp.projects with
  | .error e => .error e
  | .ok t0 =>
  match childFold res transTaskP1 pushTask t0 inp.tasks with
  | .error e => .error e
  | .ok t1 =>
  match childFold res (fun r => .ok (transTeamP1 r)) pushTeam t1 inp.team with
  | .error e => .error e
  | .ok t2 =>
  match childFold res (fun r => .ok (transCritP1 r)) pushCrit t2 inp.critical with
  | .error e => .error e
  | .ok t3 => childFold res transCashP1 pushCash t3 inp.cashflow

/-- The Cashflow loop of the first `airtable.js` handler (lines 218–237).
Its body calls `party.push({...})`, but no variable `party` is declared
anywhere in the file (every other variant pushes onto
`projects[projectKey].cashflow`); in JavaScript, evaluating the callee
`party.push` of the call throws `ReferenceError: party is not defined`
before the argument object (and its date conversion) is evaluated.  So the
loop throws as soon as any cashflow record resolves to a known project, and
otherwise completes leaving the tree unchanged. -/
def cashFoldA (resolve : Rec → Option Val) : TreeObj → List Rec → Except String TreeObj
  | tree, [] => .ok tree
  | tree, r :: rs =>
      if truthyOpt (resolve r) && objHas tree (propKeyOpt (resolve r)) then
        .error "ReferenceError: party is not defined"
      else cashFoldA resolve tree rs

/-- The full GET aggregation of the first `airtable.js` handler
(lines 142–239): identical to `aggP1` except for the broken Cashflow
loop. -/
def aggA (inp : AggInput) : Except String TreeObj :=
  let idToKey := (buildProjectMapsP1 inp.projects).1
  let res := fun r => resolvedKeyP1 idToKey (Rec.fields r)
  match initTreeP1 [] inp.projects with
  | .error e => .error e
  | .ok t0 =>
  match childFold res transTaskP1 pushTask t0 inp.tasks with
  | .error e => .error e
  | .ok t1 =>
  match childFold res (fun r => .ok (transTeamP1 r)) pushTeam t1 inp.team with
  | .error e => .error e
  | .ok t2 =>
  match childFold res (fun r => .ok (transCritP1 r)) pushCrit t2 inp.critical with
  | .error e => .error e
  | .ok t3 => cashFoldA res t3 inp.cashflow

/-! ## The `airtable-with-cashflow.js` aggregation -/

/-- `keyFromLinkedProjectField` (`airtable-with-cashflow.js` lines 239–246):
only a non-empty array shape is accepted; its first element is looked up in
`projectIdToKey`, with `|| null` defaulting.  A scalar reference yields
`null`. -/
def keyFromLinkedWC (idToKey : Obj Val) (fs : Obj Val) (fieldName : String) : Option Val :=
  match getField fs fieldName with
  | some (.vList ids) =>
      match ids with
      | [] => none
      | i :: _ =>
          match objGet idToKey i with
          | some v => if truthy v then some v else none
          | none => none
  | _ => none

/-- Project metadata of `airtable-with-cashflow.js` (`projectMetaFromRecord`,
lines 153–167); no date normalization. -/
def projectMetaFromRecordWC (r : Rec) : Obj Val :=
  let f := r.fields
  [("name", jsOrD (getField f "name") (jsOrD (getField f "Name") (.vStr "Proyecto"))),
   ("subtitle", jsOrD (getField f "subtitle") (.vStr "")),
   ("statusLabel", jsOrD (getField f "statusLabel") (.vStr "")),
   ("client", jsOrD (getField f "client") (.vStr "")),
   ("amount", jsOrD (getField f "amount") (.vStr "")),
   ("start", jsOrD (getField f "start") (.vStr "")),
   ("end", jsOrD (getField f "end") (.vStr "")),
   ("pm", jsOrD (getField f "pm") (.vStr "")),
   ("ganttStart", jsOrD (getField f "ganttStart") (.vStr ""))
   , ("ganttEnd", jsOrD (getField f "ganttEnd") (.vStr ""))]

/-- `taskFromRecord` (`airtable-with-cashflow.js` lines 169–181). -/
def taskFromRecordWC (r : Rec) : Obj Val :=
  let f := r.fields
  [("recordId", .vStr r.id),
   ("name", jsOrD (getField f "Name") (.vStr "")),
   ("description", jsOrD (getField f "Description") (.vStr "")),
   ("owner", jsOrD (getField f "Owner") (.vStr "")),
   ("status", jsOrD (getField f "Status") (.vStr "pending")),
   ("progress", jsNumToVal (jsToNumber (some (jsOrD (getField f "Progress")
     (.vNum (Qn.ofNat 0)))))),
   ("startDate", jsOrD (getField f "StartDate") (.vStr "")),
   ("endDate", jsOrD (getField f "EndDate") (.vStr ""))]

/-- `teamFromRecord` (`airtable-with-cashflow.js` lines 183–190). -/
def teamFromRecordWC (r : Rec) : Obj Val :=
  let f := r.fields
  [("name", jsOrD (getField f "Name") (.vStr "")),
   ("role", jsOrD (getField f "Role") (.vStr "")),
   ("initials", jsOrD (getField f "Initials") (.vStr ""))]

/-- `criticalFromRecord` (`airtable-with-cashflow.js` lines 192–195). -/
def criticalFromRecordWC (r : Rec) : Val := jsOrD (getField r.fields "Item") (.vStr "")

/-- `cashflowFromRecord` (`airtable-with-cashflow.js` lines 197–210). -/
def cashflowFromRecordWC (r : Rec) : Obj Val :=
  let f := r.fields
  [("recordId", .vStr r.id),
   ("date", jsOrD (getField f "Date") (.vStr "")),
   ("type", jsOrD (getField f "Type") (.vStr "")),
   ("concept", jsOrD (getField f "Concept") (.vStr "")),
   ("counterparty", jsOrD (getField f "Counterparty") (.vStr "")),
   ("amount", jsNumToVal (jsToNumber (some (jsOrD (getField f "Amount")
     (.vNum (Qn.ofNat 0)))))),
   ("currency", jsOrD (getField f "Currency") (.vStr "USD")),
   ("status", jsOrD (getField f "Status") (.vStr "")),
   ("notes", jsOrD (getField f "Notes") (.vStr ""))]

/-- Project initialization of `getProjectsPayload`
(`airtable-with-cashflow.js` lines 221–236). -/
def initTreeWC : TreeObj × Obj Val → List Rec → TreeObj × Obj Val
  | acc, [] => acc
  | acc, p :: ps =>
      match getField p.fields "projectKey" with
      | some v =>
          if truthy v then
            initTreeWC (objSet acc.1 (propKey v) ⟨projectMetaFromRecordWC p, [], [], [], []⟩,
              objSet acc.2 p.id v) ps
          else initTreeWC acc ps
      | none => initTreeWC acc ps

/-- The common shape of the four child loops of `getProjectsPayload`
(lines 248–274); per-record translation there never throws. -/
def childFoldWC {α : Type} (resolve : Rec → Option Val) (tr : Rec → α)
    (pu : α → Entry → Entry) : TreeObj → List Rec → TreeObj
  | tree, [] => tree
  | tree, r :: rs =>
      if truthyOpt (resolve r) && objHas tree (propKeyOpt (resolve r)) then
        childFoldWC resolve tr pu (objUpd tree (propKeyOpt (resolve r)) (pu (tr r))) rs
      else childFoldWC resolve tr pu tree rs

/-- The aggregation of `getProjectsPayload` (`airtable-with-cashflow.js`
lines 212–277) on already-fetched record sequences. -/
def aggWC (inp : AggInput) : TreeObj :=
  let init := initTreeWC ([], []) inp.projects
  let idToKey := init.2
  let res := fun r => keyFromLinkedWC idToKey (Rec.fields r) "Project"
  let t1 := childFoldWC res taskFromRecordWC pushTask init.1 inp.tasks
  let t2 := childFoldWC res teamFromRecordWC pushTeam t1 inp.team
  let t3 := childFoldWC res criticalFromRecordWC pushCrit t2 inp.critical
  childFoldWC res cashflowFromRecordWC pushCash t3 inp.cashflow

/-! ## The paginated collection fetcher

`fetchAll` (`part_001` lines 40–62, `airtable.js` lines 45–64) loops:
request a page, throw on a non-success response, append `data.records`,
stop when no `data.offset` cursor is returned.  The model abstracts the
backend as the list of page responses consumed in order; the opaque cursor
is reduced to the presence bit of `data.offset`.  A well-formed backend
trace ends with a page carrying no cursor or a failure; the empty-trace
fallback below is unreachable for such traces. -/

/-- The upstream's response to one page request. -/
inductive PageResp where
  | ok (records : List Rec) (hasNext : Bool)
  | fail (status : Nat) (body : String)
deriving DecidableEq

/-- The thrown fetch error, carrying the HTTP status and the raw response
body (the source packs them into the message
`Airtable error <table>: <status> <body>`). -/
structure FetchErr where
  status : Nat
  body : String
deriving DecidableEq

/-- The `while (true)` page loop of `fetchAll` with accumulator `out`. -/
def fetchAllPages : List Rec → List PageResp → Except FetchErr (List Rec)
  | acc, [] => .ok acc
  | _, .fail s b :: _ => .error ⟨s, b⟩
  | acc, .ok recs true :: rest => fetchAllPages (acc ++ recs) rest
  | acc, .ok recs false :: _ => .ok (acc ++ recs)

/-- `fetchAll` of the raw-fetch variants (`part_001`, `airtable.js`,
`part_000`): every non-success page response is thrown to the caller. -/
def fetchAllRaw (pages : List PageResp) : Except FetchErr (List Rec) :=
  fetchAllPages [] pages

/-- `fetchAll` of `airtable-with-cashflow.js` (lines 135–151): the same page
loop (via the Airtable client's `eachPage`), but wrapped in `try/catch`; any
failure degrades to the empty record list. -/
def fetchAllWC (pages : List PageResp) : List Rec :=
  match fetchAllRaw pages with
  | .ok rs => rs
  | .error _ => []

/-! ## Handlers

Each handler is modelled as a total function from the environment, the
parsed request event and a backend oracle to the response plus the
chronological list of outbound backend calls.  The request body is the
already-parsed JSON object (JSON (de)serialization is out of scope); a
`fetchT` oracle call stands for one whole `fetchAll` invocation on a table
(its page-level behaviour is modelled by `fetchAllRaw` above); thrown
JavaScript errors are converted to the single top-level `catch`'s
500 response at the throw site, carrying the `String(e)` rendering. -/

/-- Backend configuration read from the environment. -/
structure Env where
  baseId : Option String
  token : Option String
deriving DecidableEq

/-- The check `!BASE_ID || !TOKEN` (an empty string is falsy, hence also
missing). -/
def envOk (e : Env) : Bool :=
  (match e.baseId with | some s => !s.data.isEmpty | none => false) &&
  (match e.token with | some s => !s.data.isEmpty | none => false)

/-- An inbound request: method, path, and parsed JSON body
(`JSON.parse(event.body || "{}")` turns an absent body into the empty
object). -/
structure Event where
  httpMethod : String
  path : String
  body : Option (Obj Val)
deriving DecidableEq

/-- An outbound single-record write request. -/
structure WriteCall where
  method : String
  table : String
  recId : Option String
  fields : Obj Val
deriving DecidableEq

/-- One outbound backend call: a full-table paginated fetch, a filtered
single-record query (`getProjectIdByKey` of `airtable-with-cashflow.js`), or
a write. -/
inductive CallItem where
  | fetchC (table : String)
  | queryC (table : String) (key : String)
  | writeC (w : WriteCall)
deriving DecidableEq

/-- Whether a call is a write. -/
def isWrite : CallItem → Bool
  | .writeC _ => true
  | _ => false

/-- The thrown write error of `airtableReq`: HTTP status plus the
`JSON.stringify`-rendering of the parsed error body (abstracted to a
string). -/
structure WErr where
  status : Nat
  dataStr : String
deriving DecidableEq

/-- The backend oracle: the outcome of a full-table fetch and of a write. -/
structure Backend where
  fetchT : String → Except FetchErr (List Rec)
  write : WriteCall → Except WErr Val

/-- Response bodies produced by the handlers. -/
inductive RespBody where
  | raw (s : String)
  | jsonOk
  | jsonErr (ok : Bool) (error : String)
  | jsonOkProjects (projects : TreeObj)
  | jsonOkRecord (record : Val)
  | jsonOkDeleted (deleted : Val)
deriving DecidableEq

/-- An HTTP response (headers, which are fixed CORS/content-type maps, are
out of scope). -/
structure Resp where
  statusCode : Nat
  body : RespBody
deriving DecidableEq

/-- A handler outcome: the response and the chronological call log. -/
abbrev HResult : Type := Resp × List CallItem

/-- The message of the error thrown by `fetchAll` on a non-success page. -/
def fetchErrMsg (table : String) (e : FetchErr) : String :=
  "Airtable error " ++ table ++ ": " ++ toString e.status ++ " " ++ e.body

/-- The message of the error thrown by `airtableReq` on a non-success write. -/
def writeErrMsg (e : WErr) : String :=
  "Airtable write error: " ++ toString e.status ++ " " ++ e.dataStr

/-- `String(e)` for a thrown `Error` object: prefixed by the class name. -/
def thrownStr (m : String) : String := "Error: " ++ m

/-- The subpath computation of `part_001` / `airtable.js` (routing): strip
the function base path, then strip leading slashes. -/
def subpathOf (path : String) : List Char :=
  let base := "/.netlify/functions/airtable".data
  let rest := if strStarts base path.data then path.data.drop base.length else []
  rest.dropWhile (· == '/')

/-- `subpath.split("/")[1]`, the record id of `tasks/:recordId` routes
(empty when missing). -/
def pathId (sub : List Char) : String :=
  String.mk ((splitChars '/' sub).getD 1 [])

/-- Task-create fields (`part_001` lines 251–260 and, textually identical,
`airtable.js` lines 255–264): fixed fields with defaults, plus
conditionally-spread date fields. -/
def createTaskFieldsP1 (p : Obj Val) (rid : String) : Obj Val :=
  [("Project", .vList [rid]),
   ("Name", jsOrD (objGet p "name") (.vStr "")),
   ("Description", jsOrD (objGet p "description") (.vStr "")),
   ("Owner", jsOrD (objGet p "owner") (.vStr "")),
   ("Status", jsOrD (objGet p "status") (.vStr "pending")),
   ("Progress", jsNumToVal (jsToNumber (some (nullish (objGet p "progress")
     (.vNum (Qn.ofNat 0))))))]
  ++ (if truthyOpt (objGet p "startDate") then
        [("Start Date", (objGet p "startDate").getD .vNull)] else [])
  ++ (if truthyOpt (objGet p "endDate") then
        [("End Date", (objGet p "endDate").getD .vNull)] else [])

/-- One conditional field assignment `if (payload.k !== undefined)
fields[kk] = f(payload.k)` of the PATCH routes, as the (possibly empty)
object chunk it contributes.  A chain of such assignments to distinct keys
on an initially empty object equals the concatenation of its chunks, in
assignment order. -/
def chunkIf (o : Option Val) (kk : String) (f : Val → Val) : Obj Val :=
  match o with
  | some v => [(kk, f v)]
  | none => []

/-- Task-patch fields of `part_001` (lines 276–282): only fields present in
the body (`!== undefined`) are included, each with its `||` default. -/
def taskPatchFieldsP1 (p : Obj Val) : Obj Val :=
  chunkIf (objGet p "name") "Name" (fun v => jsOrD (some v) (.vStr ""))
  ++ chunkIf (objGet p "description") "Description" (fun v => jsOrD (some v) (.vStr ""))
  ++ chunkIf (objGet p "owner") "Owner" (fun v => jsOrD (some v) (.vStr ""))
  ++ chunkIf (objGet p "status") "Status" (fun v => jsOrD (some v) (.vStr "pending"))
  ++ chunkIf (objGet p "progress") "Progress" (fun v => jsNumToVal (jsToNumber
       (some (nullish (some v) (.vNum (Qn.ofNat 0))))))
  ++ chunkIf (objGet p "startDate") "Start Date" (fun v => jsOrD (some v) .vNull)
  ++ chunkIf (objGet p "endDate") "End Date" (fun v => jsOrD (some v) .vNull)

/-- Task-patch fields of `airtable.js` (lines 278–284): same presence
conditions, but the string fields are passed through without `||`
defaults. -/
def taskPatchFieldsA (p : Obj Val) : Obj Val :=
  chunkIf (objGet p "name") "Name" (fun v => v)
  ++ chunkIf (objGet p "description") "Description" (fun v => v)
  ++ chunkIf (objGet p "owner") "Owner" (fun v => v)
  ++ chunkIf (objGet p "status") "Status" (fun v => v)
  ++ chunkIf (objGet p "progress") "Progress" (fun v => jsNumToVal (jsToNumber
       (some (nullish (some v) (.vNum (Qn.ofNat 0))))))
  ++ chunkIf (objGet p "startDate") "Start Date" (fun v => jsOrD (some v) .vNull)
  ++ chunkIf (objGet p "endDate") "End Date" (fun v => jsOrD (some v) .vNull)

/-- Cashflow-create fields of `part_001` (lines 314–325). -/
def cashCreateFieldsP1 (p : Obj Val) (rid : String) : Obj Val :=
  [("Project", .vList [rid]),
   ("Concept", jsOrD (objGet p "concept") (.vStr ""))]
  ++ (if truthyOpt (objGet p "date") then
        [("Date", (objGet p "date").getD .vNull)] else [])
  ++ [("Type", jsOrD (objGet p "type") (.vStr "")),
   ("Amount", jsNumToVal (jsToNumber (some (nullish (objGet p "amount")
     (.vNum (Qn.ofNat 0)))))),
   ("Currency", jsOrD (objGet p "currency") (.vStr "USD")),
   ("Party", jsOrD (objGet p "party") (.vStr "")),
   ("Status", jsOrD (objGet p "status") (.vStr "")),
   ("Notes", jsOrD (objGet p "notes") (.vStr "")),
   ("Relacionado a tarea", jsOrD (objGet p "relatedTask") (.vStr ""))]

/-- Cashflow-patch fields of `part_001` (lines 341–349). -/
def cashPatchFieldsP1 (p : Obj Val) : Obj Val :=
  chunkIf (objGet p "concept") "Concept" (fun v => jsOrD (some v) (.vStr ""))
  ++ chunkIf (objGet p "date") "Date" (fun v => jsOrD (some v) .vNull)
  ++ chunkIf (objGet p "type") "Type" (fun v => jsOrD (some v) (.vStr ""))
  ++ chunkIf (objGet p "amount") "Amount" (fun v => jsNumToVal (jsToNumber
       (some (nullish (some v) (.vNum (Qn.ofNat 0))))))
  ++ chunkIf (objGet p "currency") "Currency" (fun v => jsOrD (some v) (.vStr "USD"))
  ++ chunkIf (objGet p "party") "Party" (fun v => jsOrD (some v) (.vStr ""))
  ++ chunkIf (objGet p "status") "Status" (fun v => jsOrD (some v) (.vStr ""))
  ++ chunkIf (objGet p "notes") "Notes" (fun v => jsOrD (some v) (.vStr ""))
  ++ chunkIf (objGet p "relatedTask") "Relacionado a tarea"
       (fun v => jsOrD (some v) (.vStr ""))

/-- Cashflow-create fields of `airtable.js` (lines 320–328). -/
def cashCreateFieldsA (p : Obj Val) (rid : String) : Obj Val :=
  [("Project", .vList [rid]),
   ("Type", jsOrD (objGet p "type") (.vStr "out")),
   ("Concept", jsOrD (objGet p "concept") (.vStr "")),
   ("Party", jsOrD (objGet p "party") (.vStr "")),
   ("Amount", jsNumToVal (jsToNumber (some (nullish (objGet p "amount")
     (.vNum (Qn.ofNat 0))))))]
  ++ (if truthyOpt (objGet p "date") then
        [("Date", (objGet p "date").getD .vNull)] else [])
  ++ (if truthyOpt (objGet p "status") then
        [("Status", (objGet p "status").getD .vNull)] else [])

/-- Cashflow-patch fields of `airtable.js` (lines 341–346). -/
def cashPatchFieldsA (p : Obj Val) : Obj Val :=
  chunkIf (objGet p "type") "Type" (fun v => jsOrD (some v) .vNull)
  ++ chunkIf (objGet p "concept") "Concept" (fun v => jsOrD (some v) (.vStr ""))
  ++ chunkIf (objGet p "party") "Party" (fun v => jsOrD (some v) (.vStr ""))
  ++ chunkIf (objGet p "amount") "Amount" (fun v => jsNumToVal (jsToNumber
       (some (nullish (some v) (.vNum (Qn.ofNat 0))))))
  ++ chunkIf (objGet p "date") "Date" (fun v => jsOrD (some v) .vNull)
  ++ chunkIf (objGet p "status") "Status" (fun v => jsOrD (some v) .vNull)

/-! ### The `part_001` handler -/

/-- GET route of `part_001` (lines 116–234): `buildProjectMaps` fetches
Projects, then Tasks/Team/Critical/Cashflow are fetched jointly
(`Promise.all`; all four requests are issued, and on failure the model
reports the first failing table in list order), then the aggregation runs.
Unlike `airtable.js`, the Cashflow fetch is not caught, so its failure
fails the request. -/
def getP1 (bk : Backend) : HResult :=
  match bk.fetchT "Projects" with
  | .error e =>
      (⟨500, .jsonErr false (thrownStr (fetchErrMsg "Projects" e))⟩, [.fetchC "Projects"])
  | .ok projectsRec =>
    let log : List CallItem :=
      [.fetchC "Projects", .fetchC "Tasks", .fetchC "Team", .fetchC "Critical",
       .fetchC "Cashflow"]
    match bk.fetchT "Tasks", bk.fetchT "Team", bk.fetchT "Critical", bk.fetchT "Cashflow" with
    | .ok ta, .ok te, .ok cr, .ok ca =>
        (match aggP1 ⟨projectsRec, ta, te, cr, ca⟩ with
         | .ok tree => ⟨200, .jsonOkProjects tree⟩
         | .error m => ⟨500, .jsonErr false m⟩, log)
    | .error e, _, _, _ => (⟨500, .jsonErr false (thrownStr (fetchErrMsg "Tasks" e))⟩, log)
    | _, .error e, _, _ => (⟨500, .jsonErr false (thrownStr (fetchErrMsg "Team" e))⟩, log)
    | _, _, .error e, _ => (⟨500, .jsonErr false (thrownStr (fetchErrMsg "Critical" e))⟩, log)
    | _, _, _, .error e => (⟨500, .jsonErr false (thrownStr (fetchErrMsg "Cashflow" e))⟩, log)

/-- POST `/tasks` of `part_001` (lines 239–264) and, textually identical in
behaviour, of `airtable.js` (lines 245–268): validate `projectKey`, rebuild
the lookup via a fresh Projects fetch, 400 on an unresolvable key (the
message interpolates the supplied key), otherwise issue the create call. -/
def postTasksP1 (bk : Backend) (payload : Obj Val) : HResult :=
  if !truthyOpt (objGet payload "projectKey") then
    (⟨400, .jsonErr false "Missing projectKey"⟩, [])
  else
    match bk.fetchT "Projects" with
    | .error e =>
        (⟨500, .jsonErr false (thrownStr (fetchErrMsg "Projects" e))⟩, [.fetchC "Projects"])
    | .ok ps =>
      match objGet (buildProjectMapsP1 ps).2 (propKeyOpt (objGet payload "projectKey")) with
      | none =>
          (⟨400, .jsonErr false
              ("Unknown projectKey: " ++ propKeyOpt (objGet payload "projectKey"))⟩,
           [.fetchC "Projects"])
      | some rid =>
        match bk.write ⟨"POST", "Tasks", none, createTaskFieldsP1 payload rid⟩ with
        | .error e =>
            (⟨500, .jsonErr false (thrownStr (writeErrMsg e))⟩,
             [.fetchC "Projects",
              .writeC ⟨"POST", "Tasks", none, createTaskFieldsP1 payload rid⟩])
        | .ok v =>
            (⟨200, .jsonOkRecord v⟩,
             [.fetchC "Projects",
              .writeC ⟨"POST", "Tasks", none, createTaskFieldsP1 payload rid⟩])

/-- The shared tail of the PATCH routes: build the final fields (re-linking
the project when a truthy `projectKey` is supplied, fetching Projects for
it and throwing `Unknown projectKey` on a miss), then issue the patch. -/
def patchWith (bk : Backend) (table : String) (rid : String) (payload : Obj Val)
    (fs : Obj Val) : HResult :=
  let wr := fun (fs2 : Obj Val) (pre : List CallItem) =>
    let w : WriteCall := ⟨"PATCH", table, some rid, fs2⟩
    match bk.write w with
    | .error e =>
        (⟨500, .jsonErr false (thrownStr (writeErrMsg e))⟩, pre ++ [CallItem.writeC w])
    | .ok v => (⟨200, .jsonOkRecord v⟩, pre ++ [CallItem.writeC w])
  let pkv := objGet payload "projectKey"
  if truthyOpt pkv then
    match bk.fetchT "Projects" with
    | .error e =>
        (⟨500, .jsonErr false (thrownStr (fetchErrMsg "Projects" e))⟩, [.fetchC "Projects"])
    | .ok ps =>
      match objGet (buildProjectMapsP1 ps).2 (propKeyOpt pkv) with
      | none =>
          (⟨500, .jsonErr false (thrownStr ("Unknown projectKey: " ++ propKeyOpt pkv))⟩,
           [.fetchC "Projects"])
      | some prid => wr (objSet fs "Project" (.vList [prid])) [.fetchC "Projects"]
  else wr fs []

/-- PATCH `/tasks/:recordId` of `part_001` (lines 269–297). -/
def patchTasksP1 (bk : Backend) (payload : Obj Val) (rid : String) : HResult :=
  if rid = "" then (⟨400, .jsonErr false "Missing recordId"⟩, [])
  else patchWith bk "Tasks" rid payload (taskPatchFieldsP1 payload)

/-- POST `/cashflow` of `part_001` (lines 302–329). -/
def postCashP1 (bk : Backend) (payload : Obj Val) : HResult :=
  let pk := objGet payload "projectKey"
  if !truthyOpt pk then (⟨400, .jsonErr false "Missing projectKey"⟩, [])
  else
    match bk.fetchT "Projects" with
    | .error e =>
        (⟨500, .jsonErr false (thrownStr (fetchErrMsg "Projects" e))⟩, [.fetchC "Projects"])
    | .ok ps =>
      match objGet (buildProjectMapsP1 ps).2 (propKeyOpt pk) with
      | none =>
          (⟨400, .jsonErr false ("Unknown projectKey: " ++ propKeyOpt pk)⟩,
           [.fetchC "Projects"])
      | some rid =>
        let w : WriteCall := ⟨"POST", "Cashflow", none, cashCreateFieldsP1 payload rid⟩
        match bk.write w with
        | .error e =>
            (⟨500, .jsonErr false (thrownStr (writeErrMsg e))⟩,
             [.fetchC "Projects", .writeC w])
        | .ok v => (⟨200, .jsonOkRecord v⟩, [.fetchC "Projects", .writeC w])

/-- PATCH `/cashflow/:recordId` of `part_001` (lines 334–364). -/
def patchCashP1 (bk : Backend) (payload : Obj Val) (rid : String) : HResult :=
  if rid = "" then (⟨400, .jsonErr false "Missing recordId"⟩, [])
  else patchWith bk "Cashflow" rid payload (cashPatchFieldsP1 payload)

/-- DELETE `/cashflow/:recordId` of `part_001` (lines 369–375) and
`airtable.js` (lines 360–367). -/
def deleteCashP1 (bk : Backend) (rid : String) : HResult :=
  if rid = "" then (⟨400, .jsonErr false "Missing recordId"⟩, [])
  else
    let w : WriteCall := ⟨"DELETE", "Cashflow", some rid, []⟩
    match bk.write w with
    | .error e => (⟨500, .jsonErr false (thrownStr (writeErrMsg e))⟩, [.writeC w])
    | .ok v => (⟨200, .jsonOkDeleted v⟩, [.writeC w])

/-- Routing of `part_001` (lines 107–377); note it has no DELETE `/tasks`
route. -/
def routeP1 (ev : Event) (bk : Backend) : HResult :=
  if ev.httpMethod = "GET" ∧
      (subpathOf ev.path = [] ∨ subpathOf ev.path = "projects".data) then getP1 bk
  else if ev.httpMethod = "POST" ∧ subpathOf ev.path = "tasks".data then
    postTasksP1 bk (ev.body.getD [])
  else if ev.httpMethod = "PATCH" ∧ strStarts "tasks/".data (subpathOf ev.path) then
    patchTasksP1 bk (ev.body.getD []) (pathId (subpathOf ev.path))
  else if ev.httpMethod = "POST" ∧ subpathOf ev.path = "cashflow".data then
    postCashP1 bk (ev.body.getD [])
  else if ev.httpMethod = "PATCH" ∧ strStarts "cashflow/".data (subpathOf ev.path) then
    patchCashP1 bk (ev.body.getD []) (pathId (subpathOf ev.path))
  else if ev.httpMethod = "DELETE" ∧ strStarts "cashflow/".data (subpathOf ev.path) then
    deleteCashP1 bk (pathId (subpathOf ev.path))
  else (⟨404, .jsonErr false "Not found"⟩, [])

/-- The `part_001` handler: CORS preflight, then the env check (lines
26–33) — with the configuration missing, the 500 is returned before any
backend call — then routing inside the single top-level `try/catch`. -/
def handlerP1 (env : Env) (ev : Event) (bk : Backend) : HResult :=
  if ev.httpMethod = "OPTIONS" then (⟨200, .jsonOk⟩, [])
  else if !envOk env then
    (⟨500, .jsonErr false "Missing env vars AIRTABLE_BASE_ID / AIRTABLE_TOKEN"⟩, [])
  else routeP1 ev bk

/-! ### The first `airtable.js` handler -/

/-- GET route of `airtable.js` (lines 132–240): as in `part_001` but the
Cashflow fetch is wrapped in `.catch(() => [])`, and the aggregation is
`aggA` with the broken Cashflow loop. -/
def getA (bk : Backend) : HResult :=
  match bk.fetchT "Projects" with
  | .error e =>
      (⟨500, .jsonErr false (thrownStr (fetchErrMsg "Projects" e))⟩, [.fetchC "Projects"])
  | .ok projectsRec =>
    let log : List CallItem :=
      [.fetchC "Projects", .fetchC "Tasks", .fetchC "Team", .fetchC "Critical",
       .fetchC "Cashflow"]
    let ca := match bk.fetchT "Cashflow" with | .ok r => r | .error _ => []
    match bk.fetchT "Tasks", bk.fetchT "Team", bk.fetchT "Critical" with
    | .ok ta, .ok te, .ok cr =>
        (match aggA ⟨projectsRec, ta, te, cr, ca⟩ with
         | .ok tree => ⟨200, .jsonOkProjects tree⟩
         | .error m => ⟨500, .jsonErr false m⟩, log)
    | .error e, _, _ => (⟨500, .jsonErr false (thrownStr (fetchErrMsg "Tasks" e))⟩, log)
    | _, .error e, _ => (⟨500, .jsonErr false (thrownStr (fetchErrMsg "Team" e))⟩, log)
    | _, _, .error e => (⟨500, .jsonErr false (thrownStr (fetchErrMsg "Critical" e))⟩, log)

/-- PATCH `/tasks/:recordId` of `airtable.js` (lines 272–296). -/
def patchTasksA (bk : Backend) (payload : Obj Val) (rid : String) : HResult :=
  if rid = "" then (⟨400, .jsonErr false "Missing recordId"⟩, [])
  else patchWith bk "Tasks" rid payload (taskPatchFieldsA payload)

/-- DELETE `/tasks/:recordId` of `airtable.js` (lines 299–306). -/
def deleteTasksA (bk : Backend) (rid : String) : HResult :=
  if rid = "" then (⟨400, .jsonErr false "Missing recordId"⟩, [])
  else
    let w : WriteCall := ⟨"DELETE", "Tasks", some rid, []⟩
    match bk.write w with
    | .error e => (⟨500, .jsonErr false (thrownStr (writeErrMsg e))⟩, [.writeC w])
    | .ok v => (⟨200, .jsonOkDeleted v⟩, [.writeC w])

/-- POST `/cashflow` of `airtable.js` (lines 311–333). -/
def postCashA (bk : Backend) (payload : Obj Val) : HResult :=
  let pk := objGet payload "projectKey"
  if !truthyOpt pk then (⟨400, .jsonErr false "Missing projectKey"⟩, [])
  else
    match bk.fetchT "Projects" with
    | .error e =>
        (⟨500, .jsonErr false (thrownStr (fetchErrMsg "Projects" e))⟩, [.fetchC "Projects"])
    | .ok ps =>
      match objGet (buildProjectMapsP1 ps).2 (propKeyOpt pk) with
      | none =>
          (⟨400, .jsonErr false ("Unknown projectKey: " ++ propKeyOpt pk)⟩,
           [.fetchC "Projects"])
      | some rid =>
        let w : WriteCall := ⟨"POST", "Cashflow", none, cashCreateFieldsA payload rid⟩
        match bk.write w with
        | .error e =>
            (⟨500, .jsonErr false (thrownStr (writeErrMsg e))⟩,
             [.fetchC "Projects", .writeC w])
        | .ok v => (⟨200, .jsonOkRecord v⟩, [.fetchC "Projects", .writeC w])

/-- PATCH `/cashflow/:recordId` of `airtable.js` (lines 335–358). -/
def patchCashA (bk : Backend) (payload : Obj Val) (rid : String) : HResult :=
  if rid = "" then (⟨400, .jsonErr false "Missing recordId"⟩, [])
  else patchWith bk "Cashflow" rid payload (cashPatchFieldsA payload)

/-- Routing of the first `airtable.js` handler (lines 108–369). -/
def routeA (ev : Event) (bk : Backend) : HResult :=
  if ev.httpMethod = "GET" ∧
      (subpathOf ev.path = [] ∨ subpathOf ev.path = "projects".data) then getA bk
  else if ev.httpMethod = "POST" ∧ subpathOf ev.path = "tasks".data then
    postTasksP1 bk (ev.body.getD [])
  else if ev.httpMethod = "PATCH" ∧ strStarts "tasks/".data (subpathOf ev.path) then
    patchTasksA bk (ev.body.getD []) (pathId (subpathOf ev.path))
  else if ev.httpMethod = "DELETE" ∧ strStarts "tasks/".data (subpathOf ev.path) then
    deleteTasksA bk (pathId (subpathOf ev.path))
  else if ev.httpMethod = "POST" ∧ subpathOf ev.path = "cashflow".data then
    postCashA bk (ev.body.getD [])
  else if ev.httpMethod = "PATCH" ∧ strStarts "cashflow/".data (subpathOf ev.path) then
    patchCashA bk (ev.body.getD []) (pathId (subpathOf ev.path))
  else if ev.httpMethod = "DELETE" ∧ strStarts "cashflow/".data (subpathOf ev.path) then
    deleteCashP1 bk (pathId (subpathOf ev.path))
  else (⟨404, .jsonErr false "Not found"⟩, [])

/-- The first `airtable.js` handler: preflight (raw empty body), env check
(lines 34–40), then routing. -/
def handlerA (env : Env) (ev : Event) (bk : Backend) : HResult :=
  if ev.httpMethod = "OPTIONS" then (⟨200, .raw ""⟩, [])
  else if !envOk env then
    (⟨500, .jsonErr false "Missing env vars AIRTABLE_BASE_ID / AIRTABLE_TOKEN"⟩, [])
  else routeA ev bk

/-! ### The `airtable-with-cashflow.js` handler

This variant performs no request-time configuration check: missing
`AIRTABLE_API_KEY` / `AIRTABLE_BASE_ID` only produce a `console.warn` at
module load (lines 44–46), and the handler proceeds; their absence surfaces
only as failing backend calls. -/

/-- `parsePath` (lines 118–133): drop the query string, split on `/`, find
the `airtable` segment, and read the following resource and id segments. -/
def parsePathWC (path : String) : String × String :=
  let clean := (splitChars '?' path.data).headD []
  let parts := ((splitChars '/' clean).filter (fun c => !c.isEmpty)).map String.mk
  match parts.findIdx? (· = "airtable") with
  | none => ("", "")
  | some i => (parts.getD (i + 1) "", parts.getD (i + 2) "")

/-- A `fetchAll` call of `airtable-with-cashflow.js`: failures degrade to
the empty list (see `fetchAllWC`). -/
def wcFetch (bk : Backend) (t : String) : List Rec :=
  match bk.fetchT t with
  | .ok r => r
  | .error _ => []

/-- GET route of `airtable-with-cashflow.js` (lines 296–299 with
`getProjectsPayload`): five fetches (all degrading to `[]` on failure) and
the total aggregation; this route cannot fail. -/
def getWC (bk : Backend) : HResult :=
  let inp : AggInput :=
    ⟨wcFetch bk "Projects", wcFetch bk "Tasks", wcFetch bk "Team",
     wcFetch bk "Critical", wcFetch bk "Cashflow"⟩
  (⟨200, .jsonOkProjects (aggWC inp)⟩,
   [.fetchC "Projects", .fetchC "Tasks", .fetchC "Team", .fetchC "Critical",
    .fetchC "Cashflow"])

/-- The `filterByFormula` predicate of `getProjectIdByKey` (lines 279–286),
modelled as string-coercion equality on the `projectKey` field; a record
without the field never matches. -/
def wcKeyMatches (keyStr : String) (r : Rec) : Bool :=
  match getField r.fields "projectKey" with
  | some v => propKey v == keyStr
  | none => false

/-- `getProjectIdByKey`: the first matching Projects record's id
(`maxRecords: 1`). -/
def getProjectIdByKeyWC (ps : List Rec) (keyStr : String) : Option String :=
  (ps.find? (wcKeyMatches keyStr)).map Rec.id

/-- Task-create fields of `airtable-with-cashflow.js` (lines 313–320):
every field is always sent, with defaults; note `Number(body.progress || 0)`
uses `||`, not `??`. -/
def createTaskFieldsWC (p : Obj Val) (pid : String) : Obj Val :=
  [("Project", .vList [pid]),
   ("Name", jsOrD (objGet p "name") (.vStr "")),
   ("Description", jsOrD (objGet p "description") (.vStr "")),
   ("Owner", jsOrD (objGet p "owner") (.vStr "")),
   ("Status", jsOrD (objGet p "status") (.vStr "pending")),
   ("Progress", jsNumToVal (jsToNumber (some (jsOrD (objGet p "progress")
     (.vNum (Qn.ofNat 0)))))),
   ("StartDate", jsOrD (objGet p "startDate") (.vStr "")),
   ("EndDate", jsOrD (objGet p "endDate") (.vStr ""))]

/-- Task-patch fields of `airtable-with-cashflow.js` (lines 334–342):
presence-conditional spreads, raw values except `Progress`. -/
def taskPatchFieldsWC (p : Obj Val) : Obj Val :=
  chunkIf (objGet p "name") "Name" (fun v => v)
  ++ chunkIf (objGet p "description") "Description" (fun v => v)
  ++ chunkIf (objGet p "owner") "Owner" (fun v => v)
  ++ chunkIf (objGet p "status") "Status" (fun v => v)
  ++ chunkIf (objGet p "progress") "Progress" (fun v => jsNumToVal (jsToNumber
       (some (jsOrD (some v) (.vNum (Qn.ofNat 0))))))
  ++ chunkIf (objGet p "startDate") "StartDate" (fun v => v)
  ++ chunkIf (objGet p "endDate") "EndDate" (fun v => v)

/-- Cashflow-create fields of `airtable-with-cashflow.js` (lines 360–370). -/
def createCashFieldsWC (p : Obj Val) (pid : String) : Obj Val :=
  [("Project", .vList [pid]),
   ("Date", jsOrD (objGet p "date") (.vStr "")),
   ("Type", jsOrD (objGet p "type") (.vStr "")),
   ("Concept", jsOrD (objGet p "concept") (.vStr "")),
   ("Counterparty", jsOrD (objGet p "counterparty") (.vStr "")),
   ("Amount", jsNumToVal (jsToNumber (some (jsOrD (objGet p "amount")
     (.vNum (Qn.ofNat 0)))))),
   ("Currency", jsOrD (objGet p "currency") (.vStr "USD")),
   ("Status", jsOrD (objGet p "status") (.vStr "")),
   ("Notes", jsOrD (objGet p "notes") (.vStr ""))]

/-- Cashflow-patch fields of `airtable-with-cashflow.js` (lines 385–392). -/
def cashPatchFieldsWC (p : Obj Val) : Obj Val :=
  chunkIf (objGet p "date") "Date" (fun v => v)
  ++ chunkIf (objGet p "type") "Type" (fun v => v)
  ++ chunkIf (objGet p "concept") "Concept" (fun v => v)
  ++ chunkIf (objGet p "counterparty") "Counterparty" (fun v => v)
  ++ chunkIf (objGet p "amount") "Amount" (fun v => jsNumToVal (jsToNumber
       (some (jsOrD (some v) (.vNum (Qn.ofNat 0))))))
  ++ chunkIf (objGet p "currency") "Currency" (fun v => v)
  ++ chunkIf (objGet p "status") "Status" (fun v => v)
  ++ chunkIf (objGet p "notes") "Notes" (fun v => v)

/-- POST `/tasks` of `airtable-with-cashflow.js` (lines 302–327): validate
`projectKey`, resolve it through a filtered Projects query, answer 400 with
the fixed message `projectKey inválido (no existe en Projects)` (the
supplied key is not interpolated) on a miss, otherwise create.  (The
response's `record` shape and the Airtable client's error messages are
abstracted.) -/
def postTasksWC (bk : Backend) (payload : Obj Val) : HResult :=
  let pk := objGet payload "projectKey"
  if !truthyOpt pk then (⟨400, .jsonErr false "projectKey requerido"⟩, [])
  else
    let q : CallItem := .queryC "Projects" (propKeyOpt pk)
    match bk.fetchT "Projects" with
    | .error e => (⟨500, .jsonErr false (fetchErrMsg "Projects" e)⟩, [q])
    | .ok ps =>
      match getProjectIdByKeyWC ps (propKeyOpt pk) with
      | none =>
          (⟨400, .jsonErr false "projectKey inválido (no existe en Projects)"⟩, [q])
      | some pid =>
        let w : WriteCall := ⟨"POST", "Tasks", none, createTaskFieldsWC payload pid⟩
        match bk.write w with
        | .error e => (⟨500, .jsonErr false (writeErrMsg e)⟩, [q, .writeC w])
        | .ok v => (⟨200, .jsonOkRecord v⟩, [q, .writeC w])

/-- POST `/cashflow` of `airtable-with-cashflow.js` (lines 350–376). -/
def postCashWC (bk : Backend) (payload : Obj Val) : HResult :=
  let pk := objGet payload "projectKey"
  if !truthyOpt pk then (⟨400, .jsonErr false "projectKey requerido"⟩, [])
  else
    let q : CallItem := .queryC "Projects" (propKeyOpt pk)
    match bk.fetchT "Projects" with
    | .error e => (⟨500, .jsonErr false (fetchErrMsg "Projects" e)⟩, [q])
    | .ok ps =>
      match getProjectIdByKeyWC ps (propKeyOpt pk) with
      | none =>
          (⟨400, .jsonErr false "projectKey inválido (no existe en Projects)"⟩, [q])
      | some pid =>
        let w : WriteCall := ⟨"POST", "Cashflow", none, createCashFieldsWC payload pid⟩
        match bk.write w with
        | .error e => (⟨500, .jsonErr false (writeErrMsg e)⟩, [q, .writeC w])
        | .ok v => (⟨200, .jsonOkRecord v⟩, [q, .writeC w])

/-- A PATCH write of `airtable-with-cashflow.js`. -/
def patchWC (bk : Backend) (table : String) (rid : String) (fs : Obj Val) : HResult :=
  let w : WriteCall := ⟨"PATCH", table, some rid, fs⟩
  match bk.write w with
  | .error e => (⟨500, .jsonErr false (writeErrMsg e)⟩, [.writeC w])
  | .ok v => (⟨200, .jsonOkRecord v⟩, [.writeC w])

/-- The `airtable-with-cashflow.js` handler (lines 288–406): preflight 204,
no env check, resource-based routing; PATCH routes require a non-empty id
segment, and there are no DELETE routes. -/
def handlerWC (ev : Event) (bk : Backend) : HResult :=
  if ev.httpMethod = "OPTIONS" then (⟨204, .raw ""⟩, [])
  else
    let ri := parsePathWC ev.path
    let payload := ev.body.getD []
    if ev.httpMethod = "GET" ∧ ri.1 = "" then getWC bk
    else if ri.1 = "tasks" ∧ ev.httpMethod = "POST" then postTasksWC bk payload
    else if ri.1 = "tasks" ∧ ev.httpMethod = "PATCH" ∧ ri.2 ≠ "" then
      patchWC bk "Tasks" ri.2 (taskPatchFieldsWC payload)
    else if ri.1 = "cashflow" ∧ ev.httpMethod = "POST" then postCashWC bk payload
    else if ri.1 = "cashflow" ∧ ev.httpMethod = "PATCH" ∧ ri.2 ≠ "" then
      patchWC bk "Cashflow" ri.2 (cashPatchFieldsWC payload)
    else (⟨404, .jsonErr false "Ruta no encontrada"⟩, [])

/-! ## Derived notions used by the statements -/

/-- Resolution of a child record's linked-project reference through the
bidirectional project-key lookup table `(projectIdToKey, projectKeyToId)`
of §3 of the specification: after normalizing the reference to a scalar,
either its string coercion is a known record id (id-to-key direction), or
the reference is truthy and its string coercion is itself a known project
key (key-to-id direction; the code reaches this through the
`projectIdToKey[linkedId] || linkedId` fallback followed by the
`projects[projectKey]` membership check). -/
def resolvesViaLookup (maps : Obj Val × Obj String) (fs : Obj Val) : Prop :=
  (objGet maps.1 (propKeyOpt (linkedIdOf fs))).isSome = true ∨
  (truthyOpt (linkedIdOf fs) = true ∧
    (objGet maps.2 (propKeyOpt (linkedIdOf fs))).isSome = true)

instance (maps : Obj Val × Obj String) (fs : Obj Val) :
    Decidable (resolvesViaLookup maps fs) := by
  unfold resolvesViaLookup
  infer_instance

/-- The truthy `"Project Key"` value of a Projects record, if any. -/
def recKeyVal (r : Rec) : Option Val :=
  match getField r.fields "Project Key" with
  | some v => if truthy v then some v else none
  | none => none

/-- Whether a Projects record carries the (coerced) project key `K`. -/
def recHasKey (K : String) (r : Rec) : Bool :=
  match recKeyVal r with
  | some v => propKey v == K
  | none => false

/-- The last record of the list satisfying the predicate (fetch order). -/
def lastWith (pred : Rec → Bool) (l : List Rec) : Option Rec :=
  l.reverse.find? pred

/-- The internal-to-backend field-name correspondence of the task PATCH
translation. -/
def taskFieldPairs : List (String × String) :=
  [("name", "Name"), ("description", "Description"), ("owner", "Owner"),
   ("status", "Status"), ("progress", "Progress"), ("startDate", "Start Date"),
   ("endDate", "End Date")]

/-! ## Concrete instances used by witnesses and counterexamples -/

def projC1 : Rec := ⟨"rp1", [("Project Key", .vStr "macro_lan"), ("Name", .vStr "Macro LAN")]⟩

def taskC1 : Rec := ⟨"t1", [("Project", .vList ["rp1"]), ("Name", .vStr "Kickoff")]⟩

/-- A task whose linked-project reference resolves to nothing. -/
def taskC1X : Rec := ⟨"t2", [("Project", .vList ["recNOPE"]), ("Name", .vStr "Ghost")]⟩

def inpC1 : AggInput := ⟨[projC1], [taskC1, taskC1X], [], [], []⟩

def metaC1 : Obj Val :=
  [("name", .vStr "Macro LAN"), ("subtitle", .vStr ""), ("statusLabel", .vStr ""),
   ("client", .vStr ""), ("amount", .vStr ""), ("start", .vStr ""), ("end", .vStr ""),
   ("pm", .vStr ""), ("ganttStart", .vNull), ("ganttEnd", .vNull)]

def taskOutC1 : Obj Val :=
  [("recordId", .vStr "t1"), ("id", .vNull), ("name", .vStr "Kickoff"),
   ("description", .vStr ""), ("owner", .vStr ""), ("status", .vStr "pending"),
   ("progress", .vNum ⟨0, 1⟩), ("startDate", .vStr ""), ("endDate", .vStr "")]

def entryC1 : Entry := ⟨metaC1, [taskOutC1], [], [], []⟩

def treeC1 : TreeObj := [("macro_lan", entryC1)]

def projC2 : Rec := ⟨"rp1", [("Project Key", .vStr "p"), ("Name", .vStr "P1")]⟩

/-- A cashflow record that resolves to project `p` but has every other
field missing. -/
def cashC2 : Rec := ⟨"rc1", [("Project", .vList ["rp1"])]⟩

def bkC2 : Backend :=
  ⟨fun t => if t = "Projects" then .ok [projC2]
            else if t = "Cashflow" then .ok [cashC2] else .ok [],
   fun _ => .error ⟨500, "unused"⟩⟩

def envOkC : Env := ⟨some "appBASE", some "tok"⟩

def evGetAir : Event := ⟨"GET", "/.netlify/functions/airtable", none⟩

def metaC2 : Obj Val :=
  [("name", .vStr "P1"), ("subtitle", .vStr ""), ("statusLabel", .vStr ""),
   ("client", .vStr ""), ("amount", .vStr ""), ("start", .vStr ""), ("end", .vStr ""),
   ("pm", .vStr ""), ("ganttStart", .vNull), ("ganttEnd", .vNull)]

/-- The cashflow entry `part_001` produces for `cashC2`: every missing
field replaced by its documented default. -/
def cashOutC2 : Obj Val :=
  [("recordId", .vStr "rc1"), ("concept", .vStr ""), ("date", .vStr ""),
   ("type", .vStr ""), ("amount", .vNum ⟨0, 1⟩), ("currency", .vStr "USD"),
   ("party", .vStr ""), ("status", .vStr ""), ("notes", .vStr ""),
   ("relatedTask", .vStr "")]

def treeC2 : TreeObj := [("p", ⟨metaC2, [], [], [], [cashOutC2]⟩)]

def pageRecC3 : Rec := ⟨"r1", [("Name", .vStr "only")]⟩

def prefixC3 : List PageResp := [.ok [pageRecC3] true]

def bkDown : Backend :=
  ⟨fun _ => .error ⟨401, "unauthorized"⟩, fun _ => .error ⟨401, "unauthorized"⟩⟩

def envMissing : Env := ⟨none, some "tok"⟩

def evPostTasks : Event :=
  ⟨"POST", "/.netlify/functions/airtable/tasks",
   some [("projectKey", .vStr "nonexistent"), ("name", .vStr "T")]⟩

def bkEmptyTables : Backend := ⟨fun _ => .ok [], fun _ => .error ⟨500, "unused"⟩⟩

def evPatchDone : Event :=
  ⟨"PATCH", "/.netlify/functions/airtable/tasks/rec9", some [("status", .vStr "done")]⟩

/-- A task record whose `Progress` field holds the non-numeric string
`"abc"`. -/
def taskAbc : Rec := ⟨"t7", [("Progress", .vStr "abc")]⟩

/-- The translation `part_001` produces for `taskAbc`: `Number("abc")` is
NaN, not `0`. -/
def taskOutAbc : Obj Val :=
  [("recordId", .vStr "t7"), ("id", .vNull), ("name", .vStr ""),
   ("description", .vStr ""), ("owner", .vStr ""), ("status", .vStr "pending"),
   ("progress", .vNan), ("startDate", .vStr ""), ("endDate", .vStr "")]

def cashAmtC8 : Rec := ⟨"rc8", [("Amount", .vStr "$1,200.50")]⟩

def cashOutC8 : Obj Val :=
  [("recordId", .vStr "rc8"), ("concept", .vStr ""), ("date", .vStr ""),
   ("type", .vStr ""), ("amount", .vNum ⟨120050, 100⟩), ("currency", .vStr "USD"),
   ("party", .vStr ""), ("status", .vStr ""), ("notes", .vStr ""),
   ("relatedTask", .vStr "")]

def idkC9 : Obj Val := [("rp1", .vStr "p")]

def projD1 : Rec := ⟨"rpA", [("Project Key", .vStr "dup"), ("Name", .vStr "First")]⟩

def projD2 : Rec := ⟨"rpB", [("Project Key", .vStr "dup"), ("Name", .vStr "Second")]⟩

def psC10 : List Rec := [projD1, projD2]

def metaD2 : Obj Val :=
  [("name", .vStr "Second"), ("subtitle", .vStr ""), ("statusLabel", .vStr ""),
   ("client", .vStr ""), ("amount", .vStr ""), ("start", .vStr ""), ("end", .vStr ""),
   ("pm", .vStr ""), ("ganttStart", .vNull), ("ganttEnd", .vNull)]

/-- The tree produced from `psC10`: one node for the duplicated key, holding
the later record's metadata. -/
def treeC10 : TreeObj := [("dup", ⟨metaD2, [], [], [], []⟩)]

/-- A task record with no fields at all. -/
def taskNoProg : Rec := ⟨"t9", []⟩

/-- The `part_001` translation of `taskNoProg`. -/
def taskOutT9 : Obj Val :=
  [("recordId", .vStr "t9"), ("id", .vNull), ("name", .vStr ""),
   ("description", .vStr ""), ("owner", .vStr ""), ("status", .vStr "pending"),
   ("progress", .vNum ⟨0, 1⟩), ("startDate", .vStr ""), ("endDate", .vStr "")]

/-! ## Lemmas about the object model -/

theorem objGet_objSet {α : Type} (o : Obj α) (k : String) (v : α) (s : String) :
    objGet (objSet o k v) s = if k = s then some v else objGet o s := by
  induction o with
  | nil => simp [objSet, objGet]
  | cons h t ih =>
      obtain ⟨hk, hv⟩ := h
      by_cases hks : hk = k
      · subst hks
        by_cases hs : hk = s <;> simp [objSet, objGet, hs]
      · simp only [objSet, if_neg hks]
        by_cases hs : hk = s
        · subst hs
          have : ¬ k = hk := fun h => hks h.symm
          simp [objGet, this]
        · simp [objGet, hs, ih]

theorem objGet_objUpd {α : Type} (o : Obj α) (k : String) (f : α → α) (s : String) :
    objGet (objUpd o k f) s = if k = s then (objGet o s).map f else objGet o s := by
  induction o with
  | nil => simp [objUpd, objGet]
  | cons h t ih =>
      obtain ⟨hk, hv⟩ := h
      by_cases hks : hk = k
      · subst hks
        by_cases hs : hk = s <;> simp [objUpd, objGet, hs]
      · simp only [objUpd, if_neg hks]
        by_cases hs : hk = s
        · subst hs
          have : ¬ k = hk := fun h => hks h.symm
          simp [objGet, this]
        · simp [objGet, hs, ih]

theorem objKeys_objUpd {α : Type} (o : Obj α) (k : String) (f : α → α) :
    objKeys (objUpd o k f) = objKeys o := by
  induction o with
  | nil => rfl
  | cons h t ih =>
      obtain ⟨hk, hv⟩ := h
      by_cases hks : hk = k
      · simp [objUpd, objKeys, hks]
      · simp only [objUpd, if_neg hks, objKeys, List.map_cons, List.cons.injEq, true_and]
        simpa [objKeys] using ih

theorem objHas_objUpd {α : Type} (o : Obj α) (k : String) (f : α → α) (s : String) :
    objHas (objUpd o k f) s = objHas o s := by
  unfold objHas
  rw [objGet_objUpd]
  by_cases h : k = s
  · rw [if_pos h]
    cases objGet o s <;> simp
  · rw [if_neg h]

theorem objKeys_objSet {α : Type} (o : Obj α) (k : String) (v : α) :
    objKeys (objSet o k v) =
      if k ∈ objKeys o then objKeys o else objKeys o ++ [k] := by
  induction o with
  | nil => simp [objSet, objKeys]
  | cons h t ih =>
      obtain ⟨hk, hv⟩ := h
      by_cases hks : hk = k
      · subst hks
        simp [objSet, objKeys]
      · have hne : ¬ k = hk := fun hh => hks hh.symm
        have h1 : objSet ((hk, hv) :: t) k v = (hk, hv) :: objSet t k v := by
          simp [objSet, hks]
        have h2 : objKeys ((hk, hv) :: objSet t k v) = hk :: objKeys (objSet t k v) := rfl
        have h3 : objKeys ((hk, hv) :: t) = hk :: objKeys t := rfl
        rw [h1, h2, h3, ih]
        by_cases hmem : k ∈ objKeys t
        · rw [if_pos hmem, if_pos (by simp [hmem])]
        · rw [if_neg hmem, if_neg (by simp [List.mem_cons, hmem, hne])]
          simp

theorem objHas_iff_mem_keys {α : Type} (o : Obj α) (s : String) :
    objHas o s = true ↔ s ∈ objKeys o := by
  induction o with
  | nil => simp [objHas, objGet, objKeys]
  | cons h t ih =>
      obtain ⟨hk, hv⟩ := h
      by_cases hs : hk = s
      · subst hs
        simp [objHas, objGet, objKeys]
      · simp only [objHas, objGet, if_neg hs, objKeys, List.map_cons, List.mem_cons]
        rw [← objKeys]
        constructor
        · intro hh
          exact Or.inr ((ih).1 hh)
        · intro hh
          rcases hh with hh | hh
          · exact absurd hh.symm hs
          · exact (ih).2 hh

theorem objKeys_objSet_congr {α β : Type} (o : Obj α) (o' : Obj β) (k : String)
    (v : α) (w : β) (h : objKeys o = objKeys o') :
    objKeys (objSet o k v) = objKeys (objSet o' k w) := by
  rw [objKeys_objSet, objKeys_objSet, h]

theorem objKeys_nodup_objSet {α : Type} (o : Obj α) (k : String) (v : α)
    (h : (objKeys o).Nodup) : (objKeys (objSet o k v)).Nodup := by
  rw [objKeys_objSet]
  by_cases hm : k ∈ objKeys o
  · rwa [if_pos hm]
  · rw [if_neg hm]
    refine h.append (List.nodup_singleton k) ?_
    intro a ha hb
    rw [List.mem_singleton] at hb
    subst hb
    exact hm ha

/-! ## Lemmas about the child loops -/

theorem childFold_keys {α : Type} (res : Rec → Option Val) (tr : Rec → Except String α)
    (pu : α → Entry → Entry) :
    ∀ (rs : List Rec) (tree tree' : TreeObj),
      childFold res tr pu tree rs = .ok tree' → objKeys tree' = objKeys tree := by
  intro rs
  induction rs with
  | nil =>
      intro tree tree' h
      simp only [childFold] at h
      cases h
      rfl
  | cons r rs ih =>
      intro tree tree' h
      simp only [childFold] at h
      by_cases hc : (truthyOpt (res r) && objHas tree (propKeyOpt (res r))) = true
      · rw [if_pos hc] at h
        cases htr : tr r with
        | error e => rw [htr] at h; exact Except.noConfusion h
        | ok x =>
            rw [htr] at h
            have := ih _ _ h
            rwa [objKeys_objUpd] at this
      · rw [if_neg hc] at h
        exact ih _ _ h

theorem childFold_pres {α γ : Type} (res : Rec → Option Val) (tr : Rec → Except String α)
    (pu : α → Entry → Entry) (g : Entry → γ) (hg : ∀ x e, g (pu x e) = g e) :
    ∀ (rs : List Rec) (tree tree' : TreeObj),
      childFold res tr pu tree rs = .ok tree' →
      ∀ K e', objGet tree' K = some e' →
        ∃ e, objGet tree K = some e ∧ g e' = g e := by
  intro rs
  induction rs with
  | nil =>
      intro tree tree' h K e' hK
      simp only [childFold] at h
      cases h
      exact ⟨e', hK, rfl⟩
  | cons r rs ih =>
      intro tree tree' h K e' hK
      simp only [childFold] at h
      by_cases hc : (truthyOpt (res r) && objHas tree (propKeyOpt (res r))) = true
      · rw [if_pos hc] at h
        cases htr : tr r with
        | error e => rw [htr] at h; exact Except.noConfusion h
        | ok x =>
            rw [htr] at h
            obtain ⟨e1, he1, hge⟩ := ih _ _ h K e' hK
            rw [objGet_objUpd] at he1
            by_cases hkk : propKeyOpt (res r) = K
            · rw [if_pos hkk] at he1
              cases hgo : objGet tree K with
              | none => rw [hgo] at he1; simp at he1
              | some e0 =>
                  rw [hgo] at he1
                  have he2 : pu x e0 = e1 := Option.some.inj he1
                  subst he2
                  exact ⟨e0, rfl, by rw [hge, hg]⟩
            · rw [if_neg hkk] at he1
              exact ⟨e1, he1, hge⟩
      · rw [if_neg hc] at h
        exact ih _ _ h K e' hK

theorem childFold_mem {α : Type} (res : Rec → Option Val) (tr : Rec → Except String α)
    (pu : α → Entry → Entry) (g : Entry → List α)
    (hg : ∀ x e, g (pu x e) = g e ++ [x]) :
    ∀ (rs : List Rec) (tree tree' : TreeObj),
      childFold res tr pu tree rs = .ok tree' →
      ∀ K e', objGet tree' K = some e' →
        ∀ x ∈ g e',
          (∃ e, objGet tree K = some e ∧ x ∈ g e) ∨
          (∃ r', r' ∈ rs ∧
            (truthyOpt (res r') && objHas tree (propKeyOpt (res r'))) = true ∧
            tr r' = .ok x) := by
  intro rs
  induction rs with
  | nil =>
      intro tree tree' h K e' hK x hx
      simp only [childFold] at h
      cases h
      exact Or.inl ⟨e', hK, hx⟩
  | cons r rs ih =>
      intro tree tree' h K e' hK x hx
      simp only [childFold] at h
      by_cases hc : (truthyOpt (res r) && objHas tree (propKeyOpt (res r))) = true
      · rw [if_pos hc] at h
        cases htr : tr r with
        | error e => rw [htr] at h; exact Except.noConfusion h
        | ok x0 =>
            rw [htr] at h
            rcases ih _ _ h K e' hK x hx with ⟨e1, he1, hxe1⟩ | ⟨r', hr', hc', htr'⟩
            · rw [objGet_objUpd] at he1
              by_cases hkk : propKeyOpt (res r) = K
              · rw [if_pos hkk] at he1
                cases hgo : objGet tree K with
                | none => rw [hgo] at he1; simp at he1
                | some e0 =>
                    rw [hgo] at he1
                    have he2 : pu x0 e0 = e1 := Option.some.inj he1
                    subst he2
                    rw [hg] at hxe1
                    rcases List.mem_append.1 hxe1 with hx0 | hx0
                    · exact Or.inl ⟨e0, rfl, hx0⟩
                    · rw [List.mem_singleton] at hx0
                      subst hx0
                      exact Or.inr ⟨r, List.mem_cons_self r rs, hc, htr⟩
              · rw [if_neg hkk] at he1
                exact Or.inl ⟨e1, he1, hxe1⟩
            · rw [objHas_objUpd] at hc'
              exact Or.inr ⟨r', List.mem_cons_of_mem r hr', hc', htr'⟩
      · rw [if_neg hc] at h
        rcases ih _ _ h K e' hK x hx with hl | ⟨r', hr', hc', htr'⟩
        · exact Or.inl hl
        · exact Or.inr ⟨r', List.mem_cons_of_mem r hr', hc', htr'⟩

/-! ## Lemmas about the project-tree initialization and the lookup maps -/

theorem initTreeP1_entries :
    ∀ (ps : List Rec) (tree tree' : TreeObj),
      initTreeP1 tree ps = .ok tree' →
      ∀ K e, objGet tree' K = some e →
        objGet tree K = some e ∨
        (e.tasks = [] ∧ e.team = [] ∧ e.critical = [] ∧ e.cashflow = []) := by
  intro ps
  induction ps with
  | nil =>
      intro tree tree' h K e hK
      simp only [initTreeP1] at h
      cases h
      exact Or.inl hK
  | cons p ps ih =>
      intro tree tree' h K e hK
      simp only [initTreeP1] at h
      cases hk : getField p.fields "Project Key" with
      | none =>
          simp only [hk] at h
          exact ih _ _ h K e hK
      | some v =>
          simp only [hk] at h
          by_cases htv : truthy v = true
          · rw [if_pos htv] at h
            cases hm : metaP1 p with
            | error er => rw [hm] at h; exact Except.noConfusion h
            | ok m =>
                rw [hm] at h
                rcases ih _ _ h K e hK with hl | hr
                · rw [objGet_objSet] at hl
                  by_cases hkk : propKey v = K
                  · rw [if_pos hkk] at hl
                    cases hl
                    exact Or.inr ⟨rfl, rfl, rfl, rfl⟩
                  · rw [if_neg hkk] at hl
                    exact Or.inl hl
                · exact Or.inr hr
          · rw [if_neg htv] at h
            exact ih _ _ h K e hK

theorem initTreeP1_keys_eq :
    ∀ (ps : List Rec) (tree : TreeObj) (acc : Obj Val × Obj String),
      objKeys tree = objKeys acc.2 →
      ∀ tree', initTreeP1 tree ps = .ok tree' →
        objKeys tree' = objKeys (buildMapsP1 acc ps).2 := by
  intro ps
  induction ps with
  | nil =>
      intro tree acc hkeys tree' h
      simp only [initTreeP1] at h
      cases h
      simpa [buildMapsP1] using hkeys
  | cons p ps ih =>
      intro tree acc hkeys tree' h
      simp only [initTreeP1] at h
      simp only [buildMapsP1]
      cases hk : getField p.fields "Project Key" with
      | none =>
          simp only [hk] at h ⊢
          exact ih _ _ hkeys _ h
      | some v =>
          simp only [hk] at h ⊢
          by_cases htv : truthy v = true
          · rw [if_pos htv] at h
            cases hm : metaP1 p with
            | error er => rw [hm] at h; exact Except.noConfusion h
            | ok m =>
                rw [hm] at h
                rw [if_pos htv]
                exact ih _ (objSet acc.1 p.id v, objSet acc.2 (propKey v) p.id)
                  (objKeys_objSet_congr _ _ _ _ _ hkeys) _ h
          · rw [if_neg htv] at h
            rw [if_neg htv]
            exact ih _ _ hkeys _ h

theorem buildMapsP1_keyToId_nodup :
    ∀ (ps : List Rec) (acc : Obj Val × Obj String),
      (objKeys acc.2).Nodup → (objKeys (buildMapsP1 acc ps).2).Nodup := by
  intro ps
  induction ps with
  | nil => intro acc h; simpa [buildMapsP1] using h
  | cons p ps ih =>
      intro acc h
      simp only [buildMapsP1]
      cases hk : getField p.fields "Project Key" with
      | none =>
          simp only [hk]
          exact ih _ h
      | some v =>
          simp only [hk]
          by_cases htv : truthy v = true
          · rw [if_pos htv]
            exact ih _ (objKeys_nodup_objSet _ _ _ h)
          · rw [if_neg htv]
            exact ih _ h

/-- An inclusion check that passes in a child loop means the reference
resolves through the bidirectional lookup table, provided the tree has
exactly the keys of the key-to-id map. -/
theorem included_implies_resolves (idToKey : Obj Val) (keyToId : Obj String)
    (tree : TreeObj) (fs : Obj Val) (hkeys : objKeys tree = objKeys keyToId)
    (hc : (truthyOpt (resolvedKeyP1 idToKey fs) &&
            objHas tree (propKeyOpt (resolvedKeyP1 idToKey fs))) = true) :
    resolvesViaLookup (idToKey, keyToId) fs := by
  unfold resolvesViaLookup
  cases hm : objGet idToKey (propKeyOpt (linkedIdOf fs)) with
  | some v =>
      left
      simp [hm]
  | none =>
      right
      have hrk : resolvedKeyP1 idToKey fs = linkedIdOf fs := by
        simp only [resolvedKeyP1]
        rw [hm]
      rw [hrk] at hc
      rw [Bool.and_eq_true] at hc
      obtain ⟨h1, h2⟩ := hc
      refine ⟨h1, ?_⟩
      have hmem := (objHas_iff_mem_keys tree _).1 h2
      rw [hkeys] at hmem
      exact (objHas_iff_mem_keys keyToId _).2 hmem

/-! ## Last-write-wins lemmas for the Projects maps and tree -/

theorem lastWith_cons (pred : Rec → Bool) (p : Rec) (ps : List Rec) :
    lastWith pred (p :: ps) =
      match lastWith pred ps with
      | some r => some r
      | none => if pred p then some p else none := by
  unfold lastWith
  rw [List.reverse_cons, List.find?_append]
  cases hl : List.find? pred ps.reverse with
  | some r => rfl
  | none =>
      cases hp : pred p <;> simp [Option.none_or, List.find?, hp]

theorem buildMapsP1_keyToId_get :
    ∀ (ps : List Rec) (acc : Obj Val × Obj String) (K : String),
      objGet (buildMapsP1 acc ps).2 K =
        match lastWith (recHasKey K) ps with
        | some r => some r.id
        | none => objGet acc.2 K := by
  intro ps
  induction ps with
  | nil => intro acc K; rfl
  | cons p ps ih =>
      intro acc K
      rw [lastWith_cons]
      simp only [buildMapsP1]
      cases hk : getField p.fields "Project Key" with
      | none =>
          simp only [hk]
          rw [ih]
          have hkp : recHasKey K p = false := by simp [recHasKey, recKeyVal, hk]
          rw [hkp]
          cases hl : lastWith (recHasKey K) ps <;> simp
      | some v =>
          by_cases htv : truthy v = true
          · simp only [hk, if_pos htv]
            rw [ih]
            have hkp : recHasKey K p = (propKey v == K) := by
              simp [recHasKey, recKeyVal, hk, htv]
            rw [hkp]
            cases hl : lastWith (recHasKey K) ps with
            | some r => simp
            | none =>
                simp only []
                rw [objGet_objSet]
                by_cases hpk : propKey v = K
                · rw [if_pos hpk]
                  simp [hpk]
                · rw [if_neg hpk]
                  simp [hpk]
          · simp only [hk, if_neg htv]
            rw [ih]
            have hkp : recHasKey K p = false := by simp [recHasKey, recKeyVal, hk, htv]
            rw [hkp]
            cases hl : lastWith (recHasKey K) ps <;> simp

theorem initTreeP1_get_last :
    ∀ (ps : List Rec) (tree tree' : TreeObj),
      initTreeP1 tree ps = .ok tree' → ∀ K,
        (match lastWith (recHasKey K) ps with
         | some r => ∃ m, metaP1 r = .ok m ∧ objGet tree' K = some ⟨m, [], [], [], []⟩
         | none => objGet tree' K = objGet tree K) := by
  intro ps
  induction ps with
  | nil =>
      intro tree tree' h K
      simp only [initTreeP1] at h
      cases h
      rfl
  | cons p ps ih =>
      intro tree tree' h K
      rw [lastWith_cons]
      simp only [initTreeP1] at h
      cases hk : getField p.fields "Project Key" with
      | none =>
          simp only [hk] at h
          have hkp : recHasKey K p = false := by simp [recHasKey, recKeyVal, hk]
          rw [hkp]
          have hih := ih _ _ h K
          cases hl : lastWith (recHasKey K) ps with
          | some r => rw [hl] at hih; exact hih
          | none => rw [hl] at hih; exact hih
      | some v =>
          by_cases htv : truthy v = true
          · simp only [hk, if_pos htv] at h
            cases hm : metaP1 p with
            | error er => rw [hm] at h; exact Except.noConfusion h
            | ok m =>
                rw [hm] at h
                have hkp : recHasKey K p = (propKey v == K) := by
                  simp [recHasKey, recKeyVal, hk, htv]
                rw [hkp]
                have hih := ih _ _ h K
                cases hl : lastWith (recHasKey K) ps with
                | some r => rw [hl] at hih; exact hih
                | none =>
                    rw [hl] at hih
                    by_cases hpk : propKey v = K
                    · rw [hpk, beq_self_eq_true]
                      show ∃ m', metaP1 p = Except.ok m' ∧
                        objGet tree' K = some ⟨m', [], [], [], []⟩
                      refine ⟨m, hm, ?_⟩
                      rw [hih, objGet_objSet, if_pos hpk]
                    · rw [beq_eq_false_iff_ne.mpr hpk]
                      show objGet tree' K = objGet tree K
                      rw [hih, objGet_objSet, if_neg hpk]
          · simp only [hk, if_neg htv] at h
            have hkp : recHasKey K p = false := by simp [recHasKey, recKeyVal, hk, htv]
            rw [hkp]
            have hih := ih _ _ h K
            cases hl : lastWith (recHasKey K) ps with
            | some r => rw [hl] at hih; exact hih
            | none => rw [hl] at hih; exact hih

theorem buildMapsP1_idToKey_untouched :
    ∀ (ps : List Rec) (acc : Obj Val × Obj String) (s : String),
      (∀ r ∈ ps, r.id ≠ s) →
      objGet (buildMapsP1 acc ps).1 s = objGet acc.1 s := by
  intro ps
  induction ps with
  | nil => intro acc s _; rfl
  | cons p ps ih =>
      intro acc s hne
      simp only [buildMapsP1]
      cases hk : getField p.fields "Project Key" with
      | none =>
          simp only [hk]
          exact ih _ _ (fun r hr => hne r (List.mem_cons_of_mem p hr))
      | some v =>
          simp only [hk]
          by_cases htv : truthy v = true
          · rw [if_pos htv]
            rw [ih _ _ (fun r hr => hne r (List.mem_cons_of_mem p hr))]
            rw [objGet_objSet, if_neg (hne p (List.mem_cons_self p ps))]
          · rw [if_neg htv]
            exact ih _ _ (fun r hr => hne r (List.mem_cons_of_mem p hr))

theorem buildMapsP1_idToKey_get :
    ∀ (ps : List Rec) (acc : Obj Val × Obj String) (r : Rec),
      r ∈ ps → (ps.map Rec.id).Nodup →
      ∀ v, recKeyVal r = some v →
        objGet (buildMapsP1 acc ps).1 r.id = some v := by
  intro ps
  induction ps with
  | nil => intro acc r hr; cases hr
  | cons p ps ih =>
      intro acc r hr hnd v hv
      have hnd' := List.nodup_cons.mp hnd
      rcases List.mem_cons.mp hr with hrp | hrtl
      · subst hrp
        have hfr : ∀ r' ∈ ps, r'.id ≠ r.id := by
          intro r' hr' heq
          exact hnd'.1 (heq ▸ List.mem_map_of_mem Rec.id hr')
        unfold recKeyVal at hv
        cases hk : getField r.fields "Project Key" with
        | none => simp only [hk] at hv; exact Option.noConfusion hv
        | some w =>
            simp only [hk] at hv
            by_cases htw : truthy w = true
            · rw [if_pos htw] at hv
              have hw : w = v := Option.some.inj hv
              subst hw
              simp only [buildMapsP1, hk, if_pos htw]
              rw [buildMapsP1_idToKey_untouched _ _ _ hfr]
              rw [objGet_objSet, if_pos rfl]
            · rw [if_neg htw] at hv
              exact Option.noConfusion hv
      · simp only [buildMapsP1]
        cases hk : getField p.fields "Project Key" with
        | none =>
            simp only [hk]
            exact ih _ _ hrtl hnd'.2 v hv
        | some w =>
            simp only [hk]
            by_cases htw : truthy w = true
            · rw [if_pos htw]
              exact ih _ _ hrtl hnd'.2 v hv
            · rw [if_neg htw]
              exact ih _ _ hrtl hnd'.2 v hv

/-! ## Substring and field-chunk lemmas -/

theorem strStarts_refl : ∀ l : List Char, strStarts l l = true := by
  intro l
  induction l with
  | nil => rfl
  | cons c cs ih => simp [strStarts, ih]

theorem strHas_suffix : ∀ (pre s : List Char), strHas s (pre ++ s) = true := by
  intro pre
  induction pre with
  | nil =>
      intro s
      cases s with
      | nil => rfl
      | cons c cs =>
          simp only [List.nil_append, strHas]
          rw [strStarts_refl]
          rfl
  | cons p pre ih =>
      intro s
      show (strStarts s (p :: (pre ++ s)) || strHas s (pre ++ s)) = true
      rw [ih]
      cases strStarts s (p :: (pre ++ s)) <;> rfl

/-- A message built by appending the key mentions the key. -/
theorem mentions_append (t s : String) : mentions s (t ++ s) = true := by
  unfold mentions
  have : (t ++ s).data = t.data ++ s.data := rfl
  rw [this]
  exact strHas_suffix t.data s.data

theorem objGet_append {α : Type} (o1 o2 : Obj α) (s : String) :
    objGet (o1 ++ o2) s =
      match objGet o1 s with
      | some v => some v
      | none => objGet o2 s := by
  induction o1 with
  | nil => simp [objGet]
  | cons h t ih =>
      obtain ⟨hk, hv⟩ := h
      by_cases hs : hk = s
      · simp [objGet, hs]
      · simp only [List.cons_append, objGet, if_neg hs]
        exact ih

theorem objGet_chunkIf_ne (o : Option Val) (kk b : String) (f : Val → Val)
    (h : kk ≠ b) : objGet (chunkIf o kk f) b = none := by
  cases o with
  | none => rfl
  | some v => simp [chunkIf, objGet, h]

theorem objGet_chunkIf (o : Option Val) (kk b : String) (f : Val → Val) :
    objGet (chunkIf o kk f) b = if kk = b then Option.map f o else none := by
  cases o with
  | none => simp [chunkIf, objGet]
  | some v => simp [chunkIf, objGet]

/-! ## Claim theorems -/

/-- C1 (confirmed): on the `part_001` / `airtable.js` aggregation (whose
project maps, tree initialization and Task/Team/Critical loops are textually
identical, and which `part_000` repeats without the Cashflow table), every
child element of every project node of the output tree is the translation of
an input record whose linked-project reference resolves through the
bidirectional project-key lookup table built from the Projects sequence
(`resolvesViaLookup`); contrapositively, a child record whose reference does
not resolve contributes nothing to any project's child sequences.  The
aggregation is a total function of the record sequences and the skip path
raises no error, so the drop is silent (the only error paths are malformed
date values of records that were *not* dropped). -/
theorem c1_unresolved_children_dropped :
    ∀ (inp : AggInput) (tree : TreeObj), aggP1 inp = .ok tree →
      ∀ K e, objGet tree K = some e →
        (∀ x ∈ e.tasks, ∃ r, r ∈ inp.tasks ∧
          resolvesViaLookup (buildProjectMapsP1 inp.projects) r.fields ∧
          transTaskP1 r = .ok x) ∧
        (∀ x ∈ e.team, ∃ r, r ∈ inp.team ∧
          resolvesViaLookup (buildProjectMapsP1 inp.projects) r.fields ∧
          transTeamP1 r = x) ∧
        (∀ x ∈ e.critical, ∃ r, r ∈ inp.critical ∧
          resolvesViaLookup (buildProjectMapsP1 inp.projects) r.fields ∧
          transCritP1 r = x) ∧
        (∀ x ∈ e.cashflow, ∃ r, r ∈ inp.cashflow ∧
          resolvesViaLookup (buildProjectMapsP1 inp.projects) r.fields ∧
          transCashP1 r = .ok x) := by
  intro inp tree h K e hK
  simp only [aggP1] at h
  cases h0 : initTreeP1 [] inp.projects with
  | error e0 => simp only [h0] at h; exact Except.noConfusion h
  | ok t0 =>
  simp only [h0] at h
  cases h1 : childFold
      (fun r => resolvedKeyP1 (buildProjectMapsP1 inp.projects).1 (Rec.fields r))
      transTaskP1 pushTask t0 inp.tasks with
  | error e1 => simp only [h1] at h; exact Except.noConfusion h
  | ok t1 =>
  simp only [h1] at h
  cases h2 : childFold
      (fun r => resolvedKeyP1 (buildProjectMapsP1 inp.projects).1 (Rec.fields r))
      (fun r => Except.ok (transTeamP1 r)) pushTeam t1 inp.team with
  | error e2 => simp only [h2] at h; exact Except.noConfusion h
  | ok t2 =>
  simp only [h2] at h
  cases h3 : childFold
      (fun r => resolvedKeyP1 (buildProjectMapsP1 inp.projects).1 (Rec.fields r))
      (fun r => Except.ok (transCritP1 r)) pushCrit t2 inp.critical with
  | error e3 => simp only [h3] at h; exact Except.noConfusion h
  | ok t3 =>
  simp only [h3] at h
  -- h : cashflow fold from t3 yields the final tree
  have hkeys0 : objKeys t0 = objKeys (buildProjectMapsP1 inp.projects).2 :=
    initTreeP1_keys_eq inp.projects [] ([], []) rfl t0 h0
  have hk1 : objKeys t1 = objKeys t0 := childFold_keys _ _ _ _ _ _ h1
  have hk2 : objKeys t2 = objKeys t1 := childFold_keys _ _ _ _ _ _ h2
  have hk3 : objKeys t3 = objKeys t2 := childFold_keys _ _ _ _ _ _ h3
  have hinit : ∀ K₀ e₀, objGet t0 K₀ = some e₀ →
      e₀.tasks = [] ∧ e₀.team = [] ∧ e₀.critical = [] ∧ e₀.cashflow = [] := by
    intro K₀ e₀ he₀
    rcases initTreeP1_entries inp.projects [] t0 h0 K₀ e₀ he₀ with hl | hr
    · exact Option.noConfusion hl
    · exact hr
  refine ⟨?_, ?_, ?_, ?_⟩
  · -- tasks
    intro x hx
    obtain ⟨e3', he3, ht3⟩ := childFold_pres _ transCashP1 pushCash
      Entry.tasks (fun _ _ => rfl) inp.cashflow t3 tree h K e hK
    obtain ⟨e2', he2, ht2⟩ := childFold_pres _ _ pushCrit
      Entry.tasks (fun _ _ => rfl) inp.critical t2 t3 h3 K e3' he3
    obtain ⟨e1', he1, ht1⟩ := childFold_pres _ _ pushTeam
      Entry.tasks (fun _ _ => rfl) inp.team t1 t2 h2 K e2' he2
    rw [ht3, ht2, ht1] at hx
    rcases childFold_mem _ transTaskP1 pushTask Entry.tasks (fun _ _ => rfl)
        inp.tasks t0 t1 h1 K e1' he1 x hx with ⟨e0, he0, hx0⟩ | ⟨r, hr, hcnd, htr⟩
    · rw [(hinit K e0 he0).1] at hx0
      exact absurd hx0 (List.not_mem_nil x)
    · exact ⟨r, hr, included_implies_resolves _ _ t0 r.fields hkeys0 hcnd, htr⟩
  · -- team
    intro x hx
    obtain ⟨e3', he3, ht3⟩ := childFold_pres _ transCashP1 pushCash
      Entry.team (fun _ _ => rfl) inp.cashflow t3 tree h K e hK
    obtain ⟨e2', he2, ht2⟩ := childFold_pres _ _ pushCrit
      Entry.team (fun _ _ => rfl) inp.critical t2 t3 h3 K e3' he3
    rw [ht3, ht2] at hx
    rcases childFold_mem _ (fun r => Except.ok (transTeamP1 r)) pushTeam
        Entry.team (fun _ _ => rfl) inp.team t1 t2 h2 K e2' he2 x hx with
      ⟨e1', he1, hx1⟩ | ⟨r, hr, hcnd, htr⟩
    · obtain ⟨e0, he0, ht0⟩ := childFold_pres _ transTaskP1 pushTask
        Entry.team (fun _ _ => rfl) inp.tasks t0 t1 h1 K e1' he1
      rw [ht0, (hinit K e0 he0).2.1] at hx1
      exact absurd hx1 (List.not_mem_nil x)
    · refine ⟨r, hr, ?_, Except.ok.inj htr⟩
      exact included_implies_resolves _ _ t1 r.fields (hk1.trans hkeys0) hcnd
  · -- critical
    intro x hx
    obtain ⟨e3', he3, ht3⟩ := childFold_pres _ transCashP1 pushCash
      Entry.critical (fun _ _ => rfl) inp.cashflow t3 tree h K e hK
    rw [ht3] at hx
    rcases childFold_mem _ (fun r => Except.ok (transCritP1 r)) pushCrit
        Entry.critical (fun _ _ => rfl) inp.critical t2 t3 h3 K e3' he3 x hx with
      ⟨e2', he2, hx2⟩ | ⟨r, hr, hcnd, htr⟩
    · obtain ⟨e1', he1, ht1⟩ := childFold_pres _ _ pushTeam
        Entry.critical (fun _ _ => rfl) inp.team t1 t2 h2 K e2' he2
      obtain ⟨e0, he0, ht0⟩ := childFold_pres _ transTaskP1 pushTask
        Entry.critical (fun _ _ => rfl) inp.tasks t0 t1 h1 K e1' he1
      rw [ht1, ht0, (hinit K e0 he0).2.2.1] at hx2
      exact absurd hx2 (List.not_mem_nil x)
    · refine ⟨r, hr, ?_, Except.ok.inj htr⟩
      exact included_implies_resolves _ _ t2 r.fields
        (hk2.trans (hk1.trans hkeys0)) hcnd
  · -- cashflow
    intro x hx
    rcases childFold_mem _ transCashP1 pushCash Entry.cashflow (fun _ _ => rfl)
        inp.cashflow t3 tree h K e hK x hx with
      ⟨e3', he3, hx3⟩ | ⟨r, hr, hcnd, htr⟩
    · obtain ⟨e2', he2, ht2⟩ := childFold_pres _ _ pushCrit
        Entry.cashflow (fun _ _ => rfl) inp.critical t2 t3 h3 K e3' he3
      obtain ⟨e1', he1, ht1⟩ := childFold_pres _ _ pushTeam
        Entry.cashflow (fun _ _ => rfl) inp.team t1 t2 h2 K e2' he2
      obtain ⟨e0, he0, ht0⟩ := childFold_pres _ transTaskP1 pushTask
        Entry.cashflow (fun _ _ => rfl) inp.tasks t0 t1 h1 K e1' he1
      rw [ht2, ht1, ht0, (hinit K e0 he0).2.2.2] at hx3
      exact absurd hx3 (List.not_mem_nil x)
    · exact ⟨r, hr, included_implies_resolves _ _ t3 r.fields
        (hk3.trans (hk2.trans (hk1.trans hkeys0))) hcnd, htr⟩

/-- Witness for C1: one project `macro_lan`, one resolvable task and one
task linked to an unknown record id.  The aggregation succeeds (the drop is
silent), the tree holds exactly the resolvable task's translation, and every
output task comes from a resolving record. -/
theorem c1_witness :
    aggP1 inpC1 = .ok treeC1 ∧
    objGet treeC1 "macro_lan" = some entryC1 ∧
    (∀ x ∈ entryC1.tasks, ∃ r, r ∈ inpC1.tasks ∧
      resolvesViaLookup (buildProjectMapsP1 inpC1.projects) r.fields ∧
      transTaskP1 r = .ok x) :=
  ⟨rfl, rfl,
   (c1_unresolved_children_dropped inpC1 treeC1 rfl "macro_lan" entryC1 rfl).1⟩

/-- C2 (code bug): the claim — malformed or missing child fields never fail
the aggregation, which substitutes defaults and returns the full tree — is
the spec's (and the other variants') clear intent, but the first
`airtable.js` handler's Cashflow loop calls `party.push(...)` on the
undeclared variable `party` (line 228), so the GET request crashes with
`ReferenceError: party is not defined` (a 500 for the whole response) as
soon as any cashflow record resolves, instead of pushing a defaulted entry.
On the same input — one project and one cashflow record with every field
missing — `part_001` returns 200 with the full tree and the documented
per-field defaults (`treeC2`). -/
theorem c2_party_push_crashes :
    (handlerA envOkC evGetAir bkC2).1 =
      ⟨500, .jsonErr false "ReferenceError: party is not defined"⟩ ∧
    (handlerP1 envOkC evGetAir bkC2).1 = ⟨200, .jsonOkProjects treeC2⟩ :=
  ⟨rfl, rfl⟩

/-- C3 (corrected): in the raw-fetch variants (`airtable.js`, `part_000`,
`part_001`) a non-success page response makes `fetchAll` throw an error
carrying the HTTP status and raw response body, independently of any later
pages (no retry), and no partial record sequence is returned; but the
`airtable-with-cashflow.js` `fetchAll` wraps the same loop in `try/catch`
and returns the empty sequence instead of propagating the failure. -/
theorem c3_page_failure_propagates :
    (∀ (pre : List PageResp) (s : Nat) (b : String) (rest : List PageResp),
      (∀ p ∈ pre, ∃ recs, p = PageResp.ok recs true) →
      fetchAllRaw (pre ++ PageResp.fail s b :: rest) = .error ⟨s, b⟩) ∧
    (∀ (pre : List PageResp) (s : Nat) (b : String) (rest : List PageResp),
      (∀ p ∈ pre, ∃ recs, p = PageResp.ok recs true) →
      fetchAllWC (pre ++ PageResp.fail s b :: rest) = []) := by
  have main : ∀ (pre : List PageResp) (acc : List Rec) (s : Nat) (b : String)
      (rest : List PageResp),
      (∀ p ∈ pre, ∃ recs, p = PageResp.ok recs true) →
      fetchAllPages acc (pre ++ PageResp.fail s b :: rest) = .error ⟨s, b⟩ := by
    intro pre
    induction pre with
    | nil => intro acc s b rest _; rfl
    | cons p pre ih =>
        intro acc s b rest h
        obtain ⟨recs, hp⟩ := h p (List.mem_cons_self p pre)
        subst hp
        show fetchAllPages (acc ++ recs) (pre ++ PageResp.fail s b :: rest) = _
        exact ih _ s b rest (fun q hq => h q (List.mem_cons_of_mem _ hq))
  refine ⟨fun pre s b rest h => main pre [] s b rest h, ?_⟩
  intro pre s b rest h
  unfold fetchAllWC fetchAllRaw
  rw [main pre [] s b rest h]

/-- Witness for C3: one successful page announcing a cursor, then a 503. -/
theorem c3_witness :
    fetchAllRaw (prefixC3 ++ PageResp.fail 503 "Service Unavailable" :: []) =
      .error ⟨503, "Service Unavailable"⟩ ∧
    fetchAllWC (prefixC3 ++ PageResp.fail 503 "Service Unavailable" :: []) = [] :=
  ⟨c3_page_failure_propagates.1 prefixC3 503 "Service Unavailable" []
    (fun p hp => ⟨[pageRecC3],
      by have : p = PageResp.ok [pageRecC3] true := by simpa [prefixC3] using hp
         exact this⟩),
   c3_page_failure_propagates.2 prefixC3 503 "Service Unavailable" []
    (fun p hp => ⟨[pageRecC3],
      by have : p = PageResp.ok [pageRecC3] true := by simpa [prefixC3] using hp
         exact this⟩)⟩

/-- Counterexample for C3: the with-cashflow `fetchAll` swallows a 503 page
failure and returns the empty sequence, contradicting "fails with an error
… propagates that error to its caller"; the raw fetcher on the same trace
does fail with the status and body. -/
theorem c3_counterexample :
    fetchAllWC [PageResp.fail 503 "Service Unavailable"] = [] ∧
    fetchAllRaw [PageResp.fail 503 "Service Unavailable"] =
      .error ⟨503, "Service Unavailable"⟩ :=
  ⟨rfl, rfl⟩

/-- C4 (corrected): in the handlers with a request-time env check
(`part_001` lines 28–33, `airtable.js` lines 34–40; `part_000` behaves the
same with a body lacking the `ok` flag), every non-OPTIONS request with the
configuration absent gets the 500 `ok:false` error response and the call
log stays empty — no outbound call is attempted.  The
`airtable-with-cashflow.js` handler has no such check (see
`c4_counterexample`). -/
theorem c4_missing_config_500 :
    ∀ (env : Env) (ev : Event) (bk : Backend),
      ev.httpMethod ≠ "OPTIONS" → envOk env = false →
      handlerP1 env ev bk =
        (⟨500, .jsonErr false "Missing env vars AIRTABLE_BASE_ID / AIRTABLE_TOKEN"⟩, []) ∧
      handlerA env ev bk =
        (⟨500, .jsonErr false "Missing env vars AIRTABLE_BASE_ID / AIRTABLE_TOKEN"⟩, []) := by
  intro env ev bk hm he
  constructor
  · unfold handlerP1
    rw [if_neg hm, if_pos (by rw [he]; rfl)]
  · unfold handlerA
    rw [if_neg hm, if_pos (by rw [he]; rfl)]

/-- Witness for C4: a GET with the base id missing. -/
theorem c4_witness :
    handlerP1 envMissing evGetAir bkC2 =
      (⟨500, .jsonErr false "Missing env vars AIRTABLE_BASE_ID / AIRTABLE_TOKEN"⟩, []) ∧
    handlerA envMissing evGetAir bkC2 =
      (⟨500, .jsonErr false "Missing env vars AIRTABLE_BASE_ID / AIRTABLE_TOKEN"⟩, []) :=
  c4_missing_config_500 envMissing evGetAir bkC2 (by decide) rfl

/-- Counterexample for C4: the `airtable-with-cashflow.js` handler performs
no request-time configuration check (missing env vars only produce a
`console.warn` at module load), so with the configuration absent — modelled
by every backend call failing, as the Airtable client does without
credentials — a GET is served with five attempted fetches and a 200
response, not a 500 before any outbound call. -/
theorem c4_counterexample :
    (handlerWC evGetAir bkDown).1.statusCode = 200 ∧
    (handlerWC evGetAir bkDown).2 =
      [.fetchC "Projects", .fetchC "Tasks", .fetchC "Team", .fetchC "Critical",
       .fetchC "Cashflow"] ∧
    (handlerWC evGetAir bkDown).2 ≠ [] :=
  ⟨rfl, rfl, by decide⟩

/-- C5 (corrected): on `part_001` / `airtable.js`, a POST `/tasks` whose
truthy `projectKey` does not resolve through the freshly fetched key-to-id
map returns 400 with `Unknown projectKey: <key>` — a message mentioning the
supplied key — and the call log contains no write; the two handlers behave
identically on this route.  The `airtable-with-cashflow.js` handler also
returns 400 without writing, but its fixed message does not mention the key
(see `c5_counterexample`). -/
theorem c5_unknown_projectKey_400 :
    ∀ (env : Env) (ev : Event) (bk : Backend) (pk : Val) (ps : List Rec),
      envOk env = true →
      ev.httpMethod = "POST" →
      subpathOf ev.path = "tasks".data →
      objGet (ev.body.getD []) "projectKey" = some pk →
      truthy pk = true →
      bk.fetchT "Projects" = .ok ps →
      objGet (buildProjectMapsP1 ps).2 (propKey pk) = none →
      (handlerP1 env ev bk).1 =
          ⟨400, .jsonErr false ("Unknown projectKey: " ++ propKey pk)⟩ ∧
      mentions (propKey pk) ("Unknown projectKey: " ++ propKey pk) = true ∧
      (handlerP1 env ev bk).2.filter isWrite = [] ∧
      handlerA env ev bk = handlerP1 env ev bk := by
  intro env ev bk pk ps henv hm hsub hpk htr hft hmiss
  have hpost : postTasksP1 bk (ev.body.getD []) =
      (⟨400, .jsonErr false ("Unknown projectKey: " ++ propKey pk)⟩,
       [CallItem.fetchC "Projects"]) := by
    unfold postTasksP1
    rw [hpk]
    have htr' : truthyOpt (some pk) = true := htr
    rw [htr']
    rw [if_neg (by decide)]
    simp only [hft]
    have hmiss' : objGet (buildProjectMapsP1 ps).2 (propKeyOpt (some pk)) = none := hmiss
    simp only [hmiss']
    rfl
  have hr1 : handlerP1 env ev bk = postTasksP1 bk (ev.body.getD []) := by
    unfold handlerP1
    rw [if_neg (by rw [hm]; decide), if_neg (by rw [henv]; decide)]
    unfold routeP1
    rw [if_neg (by rw [hm]; rintro ⟨hc, -⟩; exact absurd hc (by decide))]
    rw [if_pos ⟨hm, hsub⟩]
  have hrA : handlerA env ev bk = postTasksP1 bk (ev.body.getD []) := by
    unfold handlerA
    rw [if_neg (by rw [hm]; decide), if_neg (by rw [henv]; decide)]
    unfold routeA
    rw [if_neg (by rw [hm]; rintro ⟨hc, -⟩; exact absurd hc (by decide))]
    rw [if_pos ⟨hm, hsub⟩]
  refine ⟨?_, mentions_append "Unknown projectKey: " (propKey pk), ?_, ?_⟩
  · rw [hr1, hpost]
  · rw [hr1, hpost]
    rfl
  · rw [hrA, hr1]

/-- Witness for C5: `projectKey: "nonexistent"` against an empty Projects
table. -/
theorem c5_witness :
    (handlerP1 envOkC evPostTasks bkEmptyTables).1 =
      ⟨400, .jsonErr false ("Unknown projectKey: " ++ propKey (Val.vStr "nonexistent"))⟩ ∧
    mentions (propKey (Val.vStr "nonexistent"))
      ("Unknown projectKey: " ++ propKey (Val.vStr "nonexistent")) = true ∧
    (handlerP1 envOkC evPostTasks bkEmptyTables).2.filter isWrite = [] ∧
    handlerA envOkC evPostTasks bkEmptyTables =
      handlerP1 envOkC evPostTasks bkEmptyTables :=
  c5_unknown_projectKey_400 envOkC evPostTasks bkEmptyTables (Val.vStr "nonexistent") []
    rfl rfl (by decide) rfl rfl rfl rfl

/-- Counterexample for C5: `airtable-with-cashflow.js` answers the same
request with 400 and no write, but the fixed message
`projectKey inválido (no existe en Projects)` does not mention the supplied
key `nonexistent`. -/
theorem c5_counterexample :
    (handlerWC evPostTasks bkEmptyTables).1 =
      ⟨400, .jsonErr false "projectKey inválido (no existe en Projects)"⟩ ∧
    mentions "nonexistent" "projectKey inválido (no existe en Projects)" = false ∧
    (handlerWC evPostTasks bkEmptyTables).2.filter isWrite = [] :=
  ⟨rfl, by decide, rfl⟩

/-- C6 (confirmed): a PATCH `/tasks/{recordId}` whose body holds only
`status: "done"` makes both `part_001` and `airtable.js` send exactly one
write whose field set is exactly `Status: "done"`; and in general a task
field absent from the request body never appears in the patch payload built
by either variant. -/
theorem c6_patch_only_present_fields :
    (∀ (env : Env) (ev : Event) (bk : Backend) (rid : String),
      envOk env = true →
      ev.httpMethod = "PATCH" →
      strStarts "tasks/".data (subpathOf ev.path) = true →
      pathId (subpathOf ev.path) = rid →
      rid ≠ "" →
      ev.body = some [("status", Val.vStr "done")] →
      (handlerP1 env ev bk).2.filter isWrite =
        [.writeC ⟨"PATCH", "Tasks", some rid, [("Status", Val.vStr "done")]⟩] ∧
      (handlerA env ev bk).2.filter isWrite =
        [.writeC ⟨"PATCH", "Tasks", some rid, [("Status", Val.vStr "done")]⟩]) ∧
    (∀ (p : Obj Val) (i b : String), (i, b) ∈ taskFieldPairs →
      objGet p i = none →
      objGet (taskPatchFieldsP1 p) b = none ∧ objGet (taskPatchFieldsA p) b = none) := by
  constructor
  · intro env ev bk rid henv hm hst hpid hrid hb
    have hA1 : handlerP1 env ev bk =
        patchTasksP1 bk (ev.body.getD []) (pathId (subpathOf ev.path)) := by
      unfold handlerP1
      rw [if_neg (by rw [hm]; decide), if_neg (by rw [henv]; decide)]
      unfold routeP1
      rw [if_neg (by rw [hm]; rintro ⟨hc, -⟩; exact absurd hc (by decide))]
      rw [if_neg (by rw [hm]; rintro ⟨hc, -⟩; exact absurd hc (by decide))]
      rw [if_pos ⟨hm, hst⟩]
    have hA2 : handlerA env ev bk =
        patchTasksA bk (ev.body.getD []) (pathId (subpathOf ev.path)) := by
      unfold handlerA
      rw [if_neg (by rw [hm]; decide), if_neg (by rw [henv]; decide)]
      unfold routeA
      rw [if_neg (by rw [hm]; rintro ⟨hc, -⟩; exact absurd hc (by decide))]
      rw [if_neg (by rw [hm]; rintro ⟨hc, -⟩; exact absurd hc (by decide))]
      rw [if_pos ⟨hm, hst⟩]
    rw [hA1, hA2, hpid, hb]
    constructor
    · unfold patchTasksP1
      rw [if_neg hrid]
      show (patchWith bk "Tasks" rid [("status", Val.vStr "done")]
        [("Status", Val.vStr "done")]).2.filter isWrite = _
      simp only [patchWith]
      rw [if_neg (by decide)]
      cases hw : bk.write ⟨"PATCH", "Tasks", some rid, [("Status", Val.vStr "done")]⟩ <;> rfl
    · unfold patchTasksA
      rw [if_neg hrid]
      show (patchWith bk "Tasks" rid [("status", Val.vStr "done")]
        [("Status", Val.vStr "done")]).2.filter isWrite = _
      simp only [patchWith]
      rw [if_neg (by decide)]
      cases hw : bk.write ⟨"PATCH", "Tasks", some rid, [("Status", Val.vStr "done")]⟩ <;> rfl
  · intro p i b hmem habs
    simp only [taskFieldPairs, List.mem_cons, List.mem_singleton, Prod.mk.injEq,
      List.not_mem_nil, or_false] at hmem
    rcases hmem with ⟨rfl, rfl⟩ | ⟨rfl, rfl⟩ | ⟨rfl, rfl⟩ | ⟨rfl, rfl⟩ |
      ⟨rfl, rfl⟩ | ⟨rfl, rfl⟩ | ⟨rfl, rfl⟩ <;>
      exact ⟨by simp [taskPatchFieldsP1, objGet_append, objGet_chunkIf, habs],
             by simp [taskPatchFieldsA, objGet_append, objGet_chunkIf, habs]⟩

/-- Witness for C6: PATCH `/tasks/rec9` with body `status: "done"`, plus a
frame instance for the absent `name` field. -/
theorem c6_witness :
    ((handlerP1 envOkC evPatchDone bkEmptyTables).2.filter isWrite =
      [.writeC ⟨"PATCH", "Tasks", some "rec9", [("Status", Val.vStr "done")]⟩] ∧
     (handlerA envOkC evPatchDone bkEmptyTables).2.filter isWrite =
      [.writeC ⟨"PATCH", "Tasks", some "rec9", [("Status", Val.vStr "done")]⟩]) ∧
    (objGet (taskPatchFieldsP1 [("status", Val.vStr "done")]) "Name" = none ∧
     objGet (taskPatchFieldsA [("status", Val.vStr "done")]) "Name" = none) :=
  ⟨c6_patch_only_present_fields.1 envOkC evPatchDone bkEmptyTables "rec9"
     rfl rfl (by decide) (by decide) (by decide) rfl,
   c6_patch_only_present_fields.2 [("status", Val.vStr "done")] "name" "Name"
     (by decide) rfl⟩

/-- C7 (corrected): an absent `Progress` / `Amount` field does default to
the number `0` in every cited translation, and the `part_001` cashflow
amount is always a finite number (its strip-then-parse-then-`|| 0` pipeline
maps any non-numeric string to `0`); but a non-numeric string such as
`"abc"` in a task's `Progress` yields `Number("abc") = NaN`, not `0`, in
both `part_001` and `taskFromRecord` of `airtable-with-cashflow.js` (see
`c7_counterexample`). -/
theorem c7_numeric_coercion_defaults :
    (∀ (r : Rec) (o : Obj Val), getField r.fields "Progress" = none →
      transTaskP1 r = .ok o → objGet o "progress" = some (.vNum ⟨0, 1⟩)) ∧
    (∀ r : Rec, getField r.fields "Progress" = none →
      objGet (taskFromRecordWC r) "progress" = some (.vNum ⟨0, 1⟩)) ∧
    (∀ (r : Rec) (o : Obj Val), getField r.fields "Amount" = none →
      transCashP1 r = .ok o → objGet o "amount" = some (.vNum ⟨0, 1⟩)) ∧
    (∀ r : Rec, getField r.fields "Amount" = none →
      objGet (cashflowFromRecordWC r) "amount" = some (.vNum ⟨0, 1⟩)) ∧
    (∀ (r : Rec) (o : Obj Val), transCashP1 r = .ok o →
      ∃ q : Qn, objGet o "amount" = some (.vNum q)) := by
  refine ⟨?_, ?_, ?_, ?_, ?_⟩
  · intro r o habs htr
    unfold transTaskP1 at htr
    cases hsd : condDate (getField r.fields "Start Date") with
    | error e => rw [hsd] at htr; exact Except.noConfusion htr
    | ok sd =>
        simp only [hsd] at htr
        cases hed : condDate (getField r.fields "End Date") with
        | error e => rw [hed] at htr; exact Except.noConfusion htr
        | ok ed =>
            simp only [hed] at htr
            have ho := (Except.ok.inj htr).symm
            subst ho
            rw [habs]
            rfl
  · intro r habs
    simp only [taskFromRecordWC]
    rw [habs]
    rfl
  · intro r o habs htr
    unfold transCashP1 at htr
    cases hd : condDate (getField r.fields "Date") with
    | error e => rw [hd] at htr; exact Except.noConfusion htr
    | ok d =>
        simp only [hd] at htr
        have ho := (Except.ok.inj htr).symm
        subst ho
        rw [habs]
        rfl
  · intro r habs
    simp only [cashflowFromRecordWC]
    rw [habs]
    rfl
  · intro r o htr
    unfold transCashP1 at htr
    cases hd : condDate (getField r.fields "Date") with
    | error e => rw [hd] at htr; exact Except.noConfusion htr
    | ok d =>
        simp only [hd] at htr
        have ho := (Except.ok.inj htr).symm
        subst ho
        exact ⟨_, rfl⟩

/-- Witness for C7: a task record with no fields translates with
`progress = 0` in both variants. -/
theorem c7_witness :
    transTaskP1 taskNoProg = .ok taskOutT9 ∧
    objGet taskOutT9 "progress" = some (.vNum ⟨0, 1⟩) ∧
    objGet (taskFromRecordWC taskNoProg) "progress" = some (.vNum ⟨0, 1⟩) :=
  ⟨rfl, c7_numeric_coercion_defaults.1 taskNoProg taskOutT9 rfl rfl,
   c7_numeric_coercion_defaults.2.1 taskNoProg rfl⟩

/-- Counterexample for C7: `Progress: "abc"` translates to NaN (serialized
as `null`), not to the numeric value `0`, under both the `part_001` task
loop and `taskFromRecord` of `airtable-with-cashflow.js`. -/
theorem c7_counterexample :
    transTaskP1 taskAbc = .ok taskOutAbc ∧
    objGet taskOutAbc "progress" = some Val.vNan ∧
    (∀ q : Qn, some Val.vNan ≠ some (Val.vNum q)) ∧
    objGet (taskFromRecordWC taskAbc) "progress" = some Val.vNan :=
  ⟨rfl, rfl, fun _ h => Val.noConfusion (Option.some.inj h), rfl⟩

/-- C8 (confirmed): in the stripping variant (`part_001`, lines 216–217),
a Cashflow record whose amount field is the string `"$1,200.50"` is
translated with the numeric amount `1200.5` (non-numeric characters
stripped before parsing). -/
theorem c8_currency_string_amount :
    transCashP1 cashAmtC8 = .ok cashOutC8 ∧
    objGet cashOutC8 "amount" = some (.vNum ⟨120050, 100⟩) ∧
    Qn.val ⟨120050, 100⟩ = (1200.5 : ℚ) :=
  ⟨rfl, rfl, by norm_num [Qn.val]⟩

/-- C9 (corrected): in the `part_001` / `airtable.js` / `part_000` child
loops, a linked-project reference given as a list is normalized to its
first element, so the list shape and the scalar shape resolve identically;
but `keyFromLinkedProjectField` of `airtable-with-cashflow.js` accepts only
the non-empty-list shape — a scalar reference never resolves there (see
`c9_counterexample`). -/
theorem c9_linked_reference_shapes :
    (∀ (m : Obj Val) (fs1 fs2 : Obj Val) (s : String) (rest : List String),
      getField fs1 "Project" = some (.vList (s :: rest)) →
      getField fs2 "Project" = some (.vStr s) →
      resolvedKeyP1 m fs1 = resolvedKeyP1 m fs2) ∧
    (∀ (idToKey : Obj Val) (fs : Obj Val) (s : String),
      getField fs "Project" = some (.vStr s) →
      keyFromLinkedWC idToKey fs "Project" = none) := by
  constructor
  · intro m fs1 fs2 s rest h1 h2
    have e1 : linkedIdOf fs1 = some (.vStr s) := by simp [linkedIdOf, h1]
    have e2 : linkedIdOf fs2 = some (.vStr s) := by simp [linkedIdOf, h2]
    simp only [resolvedKeyP1, e1, e2]
  · intro idToKey fs s h
    simp [keyFromLinkedWC, h]

/-- Witness for C9: with `rp1 ↦ p` in the id-to-key map, the shapes
`["rp1"]` and `"rp1"` resolve to the same key in `part_001`, while the
with-cashflow helper rejects the scalar shape. -/
theorem c9_witness :
    resolvedKeyP1 idkC9 [("Project", Val.vList ["rp1"])] =
      resolvedKeyP1 idkC9 [("Project", Val.vStr "rp1")] ∧
    keyFromLinkedWC idkC9 [("Project", Val.vStr "rp1")] "Project" = none :=
  ⟨c9_linked_reference_shapes.1 idkC9 [("Project", Val.vList ["rp1"])]
     [("Project", Val.vStr "rp1")] "rp1" [] rfl rfl,
   c9_linked_reference_shapes.2 idkC9 [("Project", Val.vStr "rp1")] "rp1" rfl⟩

/-- Counterexample for C9: the scalar shape yields no resolution in
`airtable-with-cashflow.js` while the single-element list resolves (and the
`part_001` loop resolves the scalar), so the two shapes do not both resolve
in every aggregator. -/
theorem c9_counterexample :
    keyFromLinkedWC idkC9 [("Project", Val.vStr "rp1")] "Project" = none ∧
    keyFromLinkedWC idkC9 [("Project", Val.vList ["rp1"])] "Project" =
      some (Val.vStr "p") ∧
    resolvedKeyP1 idkC9 [("Project", Val.vStr "rp1")] = some (Val.vStr "p") :=
  ⟨rfl, rfl, rfl⟩

/-- C10 (confirmed): for record sequences with distinct record ids (as the
backend guarantees), the key-to-id map and the tree have no duplicate keys;
their entry for a key is determined by the last record in fetch order
carrying that key (last write wins, so with a duplicated key the later
record overwrites the earlier one's tree entry and key-to-id mapping); and
the id-to-key map sends every truthy-keyed record's id — including both
records of a duplicated key — to its own key value. -/
theorem c10_duplicate_key_last_wins :
    ∀ ps : List Rec, (ps.map Rec.id).Nodup →
      ((objKeys (buildProjectMapsP1 ps).2).Nodup ∧
        ∀ tree', initTreeP1 [] ps = .ok tree' → (objKeys tree').Nodup) ∧
      (∀ K, objGet (buildProjectMapsP1 ps).2 K =
        match lastWith (recHasKey K) ps with
        | some r => some r.id
        | none => none) ∧
      (∀ tree' K, initTreeP1 [] ps = .ok tree' →
        match lastWith (recHasKey K) ps with
        | some r => ∃ m, metaP1 r = .ok m ∧
            objGet tree' K = some ⟨m, [], [], [], []⟩
        | none => objGet tree' K = none) ∧
      (∀ r ∈ ps, ∀ v, recKeyVal r = some v →
        objGet (buildProjectMapsP1 ps).1 r.id = some v) := by
  intro ps hnd
  refine ⟨⟨?_, ?_⟩, ?_, ?_, ?_⟩
  · exact buildMapsP1_keyToId_nodup ps ([], []) List.nodup_nil
  · intro tree' h
    rw [initTreeP1_keys_eq ps [] ([], []) rfl tree' h]
    exact buildMapsP1_keyToId_nodup ps ([], []) List.nodup_nil
  · intro K
    have hg := buildMapsP1_keyToId_get ps ([], []) K
    cases hl : lastWith (recHasKey K) ps with
    | some r => simp only [hl] at hg ⊢; exact hg
    | none => simp only [hl] at hg ⊢; exact hg
  · intro tree' K h
    have hg := initTreeP1_get_last ps [] tree' h K
    cases hl : lastWith (recHasKey K) ps with
    | some r => simp only [hl] at hg ⊢; exact hg
    | none => simp only [hl] at hg ⊢; exact hg
  · intro r hr v hv
    exact buildMapsP1_idToKey_get ps ([], []) r hr hnd v hv

/-- Witness for C10: two Projects records `rpA`, `rpB` sharing the key
`dup`: the key-to-id map and the tree hold the later record `rpB`, and the
id-to-key map sends both ids to `dup`. -/
theorem c10_witness :
    objGet (buildProjectMapsP1 psC10).2 "dup" = some "rpB" ∧
    initTreeP1 [] psC10 = .ok treeC10 ∧
    objGet treeC10 "dup" = some ⟨metaD2, [], [], [], []⟩ ∧
    (objKeys (buildProjectMapsP1 psC10).2).Nodup ∧
    objGet (buildProjectMapsP1 psC10).1 "rpA" = some (.vStr "dup") ∧
    objGet (buildProjectMapsP1 psC10).1 "rpB" = some (.vStr "dup") := by
  have h := c10_duplicate_key_last_wins psC10 (by decide)
  exact ⟨h.2.1 "dup", rfl, rfl, h.1.1,
    h.2.2.2 projD1 (by decide) (.vStr "dup") rfl,
    h.2.2.2 projD2 (by decide) (.vStr "dup") rfl⟩

end PM
